import Mathlib

/-!
# T-NSEC-Core: verification of the memory-engine specification

Shallow embedding of the core memory engine of the T-NSEC repository:

* `GraphManager`       (src/graph/GraphManager.ts)      — SQLite-backed node/edge store
* `HDCEngine`          (src/hdc/HDCEngine.ts)           — hyperdimensional binary-vector algebra
* `HSGE`               (src/graph/HSGE.ts)              — structural signatures and analogy search
* `TKAPOCalibrator`    (src/tkapo/TKAPOCalibrator.ts)   — decay / reinforcement calibration
* `StreamingHashMemory`(src/memory/StreamingHashMemory.ts) — buffered karma updates

Modelling conventions:

* JavaScript IEEE-754 numbers are modelled as elements of a linear ordered
  field (instantiated at `ℚ` for executable witnesses and at `ℝ` where the
  code calls `Math.exp`).  Wall-clock timing fields (`encodingTime`,
  `queryTime`, `duration`) carry no specified content and are omitted.
* `Uint8Array` byte vectors are modelled as `List ℕ` with every entry < 256.
* JS `Map` objects are modelled as association lists in insertion order;
  JS `Set` objects as duplicate-free lists in insertion order.
* `crypto.createHash('sha256')` is modelled by a full executable SHA-256
  over byte lists (verified below against the standard test vectors).
* Randomness (`Math.random()`, `crypto.randomFillSync`) is modelled by
  explicit stream parameters, so nondeterminism becomes quantification
  over the stream.
* The SQLite layer: the schema in `GraphManager.initSchema` declares
  `FOREIGN KEY ... ON DELETE CASCADE` constraints, but the connection never
  issues `PRAGMA foreign_keys = ON` (no `pragma` call exists anywhere in the
  repository), and both SQLite and the better-sqlite3 driver leave
  foreign-key enforcement OFF by default.  The effective runtime semantics —
  the one modelled here — is therefore: `addEdge` inserts without checking
  endpoints and `deleteNode` deletes only the node row (no cascade).
-/

set_option maxRecDepth 200000

namespace TNSEC

/-! ## SHA-256 over byte lists -/

/-- 32-bit truncation. -/
def w32 (x : Nat) : Nat := x % 4294967296

/-- Right rotation of a 32-bit word by `n` bits. -/
def rotr32 (n x : Nat) : Nat :=
  w32 ((x >>> n) ||| (x <<< (32 - n)))

/-- The 64 SHA-256 round constants. -/
def sha256K : List Nat :=
  [1116352408, 1899447441, 3049323471, 3921009573,
   961987163, 1508970993, 2453635748, 2870763221,
   3624381080, 310598401, 607225278, 1426881987,
   1925078388, 2162078206, 2614888103, 3248222580,
   3835390401, 4022224774, 264347078, 604807628,
   770255983, 1249150122, 1555081692, 1996064986,
   2554220882, 2821834349, 2952996808, 3210313671,
   3336571891, 3584528711, 113926993, 338241895,
   666307205, 773529912, 1294757372, 1396182291,
   1695183700, 1986661051, 2177026350, 2456956037,
   2730485921, 2820302411, 3259730800, 3345764771,
   3516065817, 3600352804, 4094571909, 275423344,
   430227734, 506948616, 659060556, 883997877,
   958139571, 1322822218, 1537002063, 1747873779,
   1955562222, 2024104815, 2227730452, 2361852424,
   2428436474, 2756734187, 3204031479, 3329325298]

/-- Initial SHA-256 hash state. -/
def sha256H0 : List Nat :=
  [1779033703, 3144134277, 1013904242, 2773480762,
   1359893119, 2600822924, 528734635, 1541459225]

/-- SHA-256 padding: append `0x80`, zero bytes to 56 mod 64, then the
bit length as a 64-bit big-endian integer. -/
def sha256Pad (msg : List Nat) : List Nat :=
  let len := msg.length
  let bitLen := len * 8
  let zeroCount := (55 + 64 - len % 64) % 64
  msg ++ [0x80] ++ List.replicate zeroCount 0 ++
    ((List.range 8).map fun i => (bitLen >>> ((7 - i) * 8)) % 256)

/-- Big-endian 32-bit words from a list of bytes. -/
def bytesToWords : List Nat → List Nat
  | b0 :: b1 :: b2 :: b3 :: rest =>
      (b0 <<< 24 ||| b1 <<< 16 ||| b2 <<< 8 ||| b3) :: bytesToWords rest
  | _ => []

/-- Message-schedule extension from 16 to 64 words (structural recursion
on the number of words still to produce, so that kernel reduction works). -/
def sha256Schedule : Nat → Array Nat → Array Nat
  | 0, ws => ws
  | fuel + 1, ws =>
      let i := ws.size
      let w15 := ws.getD (i - 15) 0
      let w2  := ws.getD (i - 2) 0
      let s0  := rotr32 7 w15 ^^^ rotr32 18 w15 ^^^ (w15 >>> 3)
      let s1  := rotr32 17 w2 ^^^ rotr32 19 w2 ^^^ (w2 >>> 10)
      let wi  := w32 (ws.getD (i - 16) 0 + s0 + ws.getD (i - 7) 0 + s1)
      sha256Schedule fuel (ws.push wi)

/-- One round of the SHA-256 compression function. -/
def sha256Round (st : List Nat) (k wi : Nat) : List Nat :=
  match st with
  | [a, b, c, d, e, f, g, h] =>
      let s1 := rotr32 6 e ^^^ rotr32 11 e ^^^ rotr32 25 e
      let ch := (e &&& f) ^^^ ((e ^^^ 0xffffffff) &&& g)
      let t1 := w32 (h + s1 + ch + k + wi)
      let s0 := rotr32 2 a ^^^ rotr32 13 a ^^^ rotr32 22 a
      let mj := (a &&& b) ^^^ (a &&& c) ^^^ (b &&& c)
      let t2 := w32 (s0 + mj)
      [w32 (t1 + t2), a, b, c, w32 (d + t1), e, f, g]
  | st => st

/-- Process one 64-byte chunk. -/
def sha256Chunk (hs : List Nat) (chunk : List Nat) : List Nat :=
  let ws := sha256Schedule 48 ((bytesToWords chunk).toArray)
  let fin := (List.range 64).foldl
    (fun st i => sha256Round st (sha256K.getD i 0) (ws.getD i 0)) hs
  (hs.zip fin).map fun p => w32 (p.1 + p.2)

/-- Split a list into chunks of size `n` (fuel-based structural recursion;
the fuel is the list length, far more than the number of chunks). -/
def chunksOf (n : Nat) : Nat → List α → List (List α)
  | _, [] => []
  | 0, xs => [xs]
  | fuel + 1, xs => xs.take n :: chunksOf n fuel (xs.drop n)

/-- SHA-256 digest (32 bytes) of a byte list. -/
def sha256 (msg : List Nat) : List Nat :=
  let padded := sha256Pad msg
  let hs := (chunksOf 64 padded.length padded).foldl sha256Chunk sha256H0
  hs.flatMap fun h => (List.range 4).map fun i => (h >>> ((3 - i) * 8)) % 256

/-- ASCII bytes of a string (all strings hashed by this repository are
ASCII, where UTF-8 bytes coincide with code points). -/
def stringToBytes (s : String) : List Nat := s.data.map Char.toNat

/-! ## HDCEngine (src/hdc/HDCEngine.ts)

A `HyperVector` is a `Uint8Array` of `Math.ceil(dimensions / 8)` bytes,
modelled as a `List ℕ` of that length with entries < 256. -/

/-- `Math.ceil(dimensions / 8)`: byte length of a hypervector. -/
def vecLen (dims : Nat) : Nat := (dims + 7) / 8

/-- The byte-filling loop of `HDCEngine.generateDeterministicVector`,
transcribed exactly (including the rehash branch taken when the vector is
longer than one SHA-256 digest); structural recursion on the remaining
iteration count `fuel = len - i`. -/
def detVecStep (hash : List Nat) (len : Nat) : Nat → Nat → Nat → Array Nat → Array Nat
  | 0, _, _, v => v
  | fuel + 1, i, hashIndex, v =>
    if i < len then
      if hash.length ≤ hashIndex then
        let newHash := sha256 (hash ++ [i % 256])
        let v2 := (List.range newHash.length).foldl
          (fun acc j => if i + j < len then acc.setD (i + j) (newHash.getD j 0) else acc) v
        detVecStep hash len fuel (i + 1) 0 v2
      else
        detVecStep hash len fuel (i + 1) (hashIndex + 1) (v.setD i (hash.getD hashIndex 0))
    else v

/-- `HDCEngine.generateDeterministicVector(name)`: bytes drawn from
`sha256(seed + ":" + name)`. -/
def generateDeterministicVector (seed : Nat) (name : String) (dims : Nat) : List Nat :=
  (detVecStep (sha256 (stringToBytes (toString seed ++ ":" ++ name)))
    (vecLen dims) (vecLen dims) 0 0 (Array.mkArray (vecLen dims) 0)).toList

/-- `HDCEngine.generateRandomVector()`: `crypto.randomFillSync`, modelled by
an explicit byte stream `rand`. -/
def generateRandomVector (rand : Nat → Nat) (dims : Nat) : List Nat :=
  (List.range (vecLen dims)).map fun i => rand i % 256

/-- The 15 pre-registered meta-relations of `HDCEngine.META_RELATIONS`. -/
def metaRelations : List String :=
  ["is_a", "has_a", "part_of", "related_to", "causes",
   "depends_on", "similar_to", "opposite_of", "instance_of", "type_of",
   "temporal_before", "temporal_after", "spatial_near", "contains", "belongs_to"]

/-- Lookup in an insertion-ordered association list (JS `Map.get`). -/
def assocLookup (m : List (String × β)) (k : String) : Option β :=
  (m.find? fun p => p.1 = k).map fun p => p.2

/-- Mutable state of an `HDCEngine` instance: dimensionality, seed and the
two codebooks (JS `Map`s in insertion order). -/
structure HDCEngineState where
  dimensions : Nat
  seed : Nat
  symbolCodebook : List (String × List Nat)
  relationCodebook : List (String × List Nat)
deriving Repr, DecidableEq

/-- A freshly constructed `HDCEngine(dimensions, seed)`: empty symbol
codebook, meta-relations pre-registered by `initializeMetaRelations`. -/
def freshEngine (dims seed : Nat) : HDCEngineState :=
  { dimensions := dims
    seed := seed
    symbolCodebook := []
    relationCodebook := metaRelations.map fun r =>
      (r, generateDeterministicVector seed r dims) }

/-- `HDCEngine.getSymbolVector`: cached deterministic symbol encoding. -/
def getSymbolVector (st : HDCEngineState) (symbol : String) :
    List Nat × HDCEngineState :=
  match assocLookup st.symbolCodebook symbol with
  | some v => (v, st)
  | none =>
      let v := generateDeterministicVector st.seed symbol st.dimensions
      (v, { st with symbolCodebook := st.symbolCodebook ++ [(symbol, v)] })

/-- `HDCEngine.getRelationVector`: cached relation encoding; note the
`"rel:" + relation` name used for relations that are not pre-registered. -/
def getRelationVector (st : HDCEngineState) (relation : String) :
    List Nat × HDCEngineState :=
  match assocLookup st.relationCodebook relation with
  | some v => (v, st)
  | none =>
      let v := generateDeterministicVector st.seed ("rel:" ++ relation) st.dimensions
      (v, { st with relationCodebook := st.relationCodebook ++ [(relation, v)] })

/-- `HDCEngine.bind`: byte-wise XOR (both arguments always have the
engine's byte length). -/
def bind (a b : List Nat) : List Nat := List.zipWith (fun x y => x ^^^ y) a b

/-- Bit `dim` of a byte-packed hypervector (`vector[byteIdx] & (1 << bitIdx)`). -/
def bitGet (v : List Nat) (dim : Nat) : Bool := ((v.getD (dim / 8) 0) >>> (dim % 8)) % 2 = 1

/-- Number of input vectors whose bit `dim` is set. -/
def bitCount (vectors : List (List Nat)) (dim : Nat) : Nat :=
  (vectors.filter fun v => bitGet v dim).length

/-- `HDCEngine.bundle`: per-bit majority vote; a tie (`bitCounts ==
vectors.length / 2`) is broken by `Math.random() > 0.5`, modelled by the
coin stream `coin` indexed by bit position. -/
def bundle (coin : Nat → Bool) (dims : Nat) (vectors : List (List Nat)) : List Nat :=
  match vectors with
  | [] => List.replicate (vecLen dims) 0
  | [v] => v
  | _ =>
    (List.range (vecLen dims)).map fun byteIdx =>
      (List.range 8).foldl (fun acc bitIdx =>
        let dim := byteIdx * 8 + bitIdx
        if dim < dims ∧
            (2 * bitCount vectors dim > vectors.length ∨
             (2 * bitCount vectors dim = vectors.length ∧ coin dim)) then
          acc ||| (1 <<< bitIdx)
        else acc) 0

/-- Fuel-based bit-count loop (`while (x) { d += x & 1; x >>>= 1 }`);
`fuel = n` always suffices since the value at least halves each step. -/
def popcountGo : Nat → Nat → Nat
  | 0, _ => 0
  | fuel + 1, n => if n = 0 then 0 else n % 2 + popcountGo fuel (n / 2)

/-- `HDCEngine.hammingDistance`'s per-byte popcount. -/
def popcount (n : Nat) : Nat := popcountGo n n

/-- Hamming distance between two equal-length byte vectors. -/
def hammingDistance (a b : List Nat) : Nat :=
  ((List.zipWith (fun x y => x ^^^ y) a b).map popcount).sum

/-- `HDCEngine.similarity`: `1 - hammingDistance / dimensions`. -/
def similarity (dims : Nat) (a b : List Nat) : ℚ :=
  1 - (hammingDistance a b : ℚ) / (dims : ℚ)

/-- `HDCEngine.encodeTriple`: `bind(relation, bind(source, target))`,
threading the codebook state in source order (source, relation, target). -/
def encodeTriple (st : HDCEngineState) (source relation target : String) :
    List Nat × HDCEngineState :=
  let sv := getSymbolVector st source
  let rv := getRelationVector sv.2 relation
  let tv := getSymbolVector rv.2 target
  let pairVec := bind sv.1 tv.1
  (bind rv.1 pairVec, tv.2)

/-! ## GraphManager (src/graph/GraphManager.ts)

Nodes and edges live in two SQLite tables.  The JS `number` fields are
modelled over a linear ordered field `α` (instantiated at `ℚ` for
executable witnesses, at `ℝ` for the calibrator, which calls `Math.exp`).
`embedding` and `metadata` are opaque payloads never read by the
operations the claims concern and are not modelled; `created_at` is never
read back by any modelled operation and is omitted, `updated_at` is kept
because `TKAPOCalibrator.calculateDecayedKarma` reads it.

Foreign keys: `initSchema` declares `FOREIGN KEY ... ON DELETE CASCADE`
on `edges.source_id` / `edges.target_id`, but no `PRAGMA foreign_keys`
statement exists anywhere in the repository, and SQLite (and the
better-sqlite3 driver) leave foreign-key enforcement disabled by default.
Accordingly `addEdge` below inserts without any endpoint check and
`deleteNode` removes only the node row. -/

structure GraphNode (α : Type) where
  id : String
  label : String
  type : String
  karma : α
  updatedAt : Int
deriving Repr, DecidableEq

structure GraphEdge (α : Type) where
  id : String
  sourceId : String
  targetId : String
  relation : String
  weight : α
  karma : α
  updatedAt : Int
deriving Repr, DecidableEq

structure GraphState (α : Type) where
  nodes : List (GraphNode α)
  edges : List (GraphEdge α)
deriving Repr, DecidableEq

/-- Stable insertion into a list sorted descending by `key` (the element
being inserted precedes existing elements with the same key, which models
a stable `ORDER BY ... DESC` / `Array.prototype.sort` pass). -/
def insertDescBy [LinearOrder γ] (key : β → γ) (x : β) : List β → List β
  | [] => [x]
  | y :: ys => if key y ≤ key x then x :: y :: ys else y :: insertDescBy key x ys

/-- Stable descending sort by `key`. -/
def sortDescBy [LinearOrder γ] (key : β → γ) (l : List β) : List β :=
  l.foldr (insertDescBy key) []

variable {α : Type} [LinearOrderedField α]

/-- `SELECT * FROM nodes WHERE id = ?` (primary-key lookup). -/
def getNode (s : GraphState α) (id : String) : Option (GraphNode α) :=
  s.nodes.find? fun n => n.id = id

/-- `GraphManager.addNode`: inserts a fresh row.  The generated id
(`generateId`, a timestamp-random string) is passed in explicitly. -/
def addNode (s : GraphState α) (id label ntype : String) (karma : α) (now : Int) :
    GraphNode α × GraphState α :=
  let n : GraphNode α := { id := id, label := label, type := ntype,
                           karma := karma, updatedAt := now }
  (n, { s with nodes := s.nodes ++ [n] })

/-- The partial-update record of `GraphManager.updateNode` (`metadata`,
an opaque payload, is not modelled). -/
structure NodeUpdates (α : Type) where
  label : Option String := none
  type : Option String := none
  karma : Option α := none

/-- `GraphManager.updateNode`: dynamic `UPDATE ... SET` on the given
fields; returns whether any row changed. -/
def updateNode (s : GraphState α) (id : String) (u : NodeUpdates α) (now : Int) :
    Bool × GraphState α :=
  if u.label = none ∧ u.type = none ∧ u.karma = none then (false, s)
  else
    (s.nodes.any fun n => n.id = id,
     { s with nodes := s.nodes.map fun n =>
         if n.id = id then
           { n with label := u.label.getD n.label, type := u.type.getD n.type,
                    karma := u.karma.getD n.karma, updatedAt := now }
         else n })

/-- `GraphManager.deleteNode`: `DELETE FROM nodes WHERE id = ?`.  With
foreign-key enforcement off (see the section comment) the declared
`ON DELETE CASCADE` never fires, so `edges` is untouched. -/
def deleteNode (s : GraphState α) (id : String) : Bool × GraphState α :=
  (s.nodes.any fun n => n.id = id,
   { s with nodes := s.nodes.filter fun n => ¬ n.id = id })

/-- `GraphManager.addEdge`: plain `INSERT INTO edges`; no endpoint
existence check is performed (and the declared foreign-key constraints are
not enforced), so the insert succeeds even for missing endpoints. -/
def addEdge (s : GraphState α) (id sourceId targetId relation : String)
    (weight karma : α) (now : Int) : GraphEdge α × GraphState α :=
  let e : GraphEdge α := { id := id, sourceId := sourceId, targetId := targetId,
                           relation := relation, weight := weight, karma := karma,
                           updatedAt := now }
  (e, { s with edges := s.edges ++ [e] })

/-- `GraphManager.deleteEdge`. -/
def deleteEdge (s : GraphState α) (id : String) : Bool × GraphState α :=
  (s.edges.any fun e => e.id = id,
   { s with edges := s.edges.filter fun e => ¬ e.id = id })

/-- `GraphManager.updateEdgeKarma`: `UPDATE edges SET karma = ?,
updated_at = ? WHERE id = ?` — no validation or clamping. -/
def updateEdgeKarma (s : GraphState α) (id : String) (karma : α) (now : Int) :
    Bool × GraphState α :=
  (s.edges.any fun e => e.id = id,
   { s with edges := s.edges.map fun e =>
       if e.id = id then { e with karma := karma, updatedAt := now } else e })

/-- `SELECT * FROM edges WHERE source_id = ? ORDER BY karma DESC`. -/
def getOutEdges (s : GraphState α) (nodeId : String) : List (GraphEdge α) :=
  sortDescBy (fun e => e.karma) (s.edges.filter fun e => e.sourceId = nodeId)

/-- `SELECT * FROM edges WHERE target_id = ? ORDER BY karma DESC`. -/
def getInEdges (s : GraphState α) (nodeId : String) : List (GraphEdge α) :=
  sortDescBy (fun e => e.karma) (s.edges.filter fun e => e.targetId = nodeId)

/-- `GraphManager.getAllNodes(limit)`: `ORDER BY karma DESC LIMIT ?`. -/
def getAllNodes (s : GraphState α) (limit : Nat) : List (GraphNode α) :=
  (sortDescBy (fun n => n.karma) s.nodes).take limit

/-- `GraphManager.batchUpdateKarma`: one transaction running
`UPDATE nodes SET karma = ?, updated_at = ? WHERE id = ?` per entry and
summing `changes`.  No validation or clamping. -/
def batchUpdateKarma (s : GraphState α) (updates : List (String × α)) (now : Int) :
    Nat × GraphState α :=
  updates.foldl
    (fun acc u =>
      (acc.1 + (acc.2.nodes.filter fun n => n.id = u.1).length,
       { acc.2 with nodes := acc.2.nodes.map fun n =>
           if n.id = u.1 then { n with karma := u.2, updatedAt := now } else n }))
    (0, s)

/-- Proof-layer view of `batchUpdateKarma`: the cumulative effect of an
update list on a single row. -/
def applyUpdates (updates : List (String × α)) (now : Int) (n : GraphNode α) :
    GraphNode α :=
  updates.foldl
    (fun m u => if m.id = u.1 then { m with karma := u.2, updatedAt := now } else m) n

/-- Insertion-ordered deduplication (JS `new Set(list)`). -/
def dedupKeepFirst (l : List String) : List String :=
  l.foldl (fun acc x => if x ∈ acc then acc else acc ++ [x]) []

/-- `getSubgraph` result (`queryTime` omitted). -/
structure SubgraphResult (α : Type) where
  nodes : List (GraphNode α)
  edges : List (GraphEdge α)
deriving Repr, DecidableEq

/-- One node's step of the BFS layer loop in `getSubgraph`: push every
incident edge, enqueue unvisited neighbours.  State is
(visited, nextLayer, collected edges). -/
def visitNode (s : GraphState α) (nodeId : String)
    (st : List String × List String × List (GraphEdge α)) :
    List String × List String × List (GraphEdge α) :=
  (getOutEdges s nodeId ++ getInEdges s nodeId).foldl
    (fun t e =>
      let accE := t.2.2 ++ [e]
      let nb := if e.sourceId = nodeId then e.targetId else e.sourceId
      if nb ∈ t.1 then (t.1, t.2.1, accE)
      else (t.1 ++ [nb], t.2.1 ++ [nb], accE))
    st

/-- The hop loop of `getSubgraph`. -/
def subgraphHops (s : GraphState α) : Nat → List String → List String →
    List (GraphEdge α) → List String × List (GraphEdge α)
  | 0, vis, _, accE => (vis, accE)
  | h + 1, vis, layer, accE =>
      let t := layer.foldl (fun st nodeId => visitNode s nodeId st) (vis, [], accE)
      subgraphHops s h t.1 t.2.1 t.2.2

/-- Deduplicate edges by id, keeping first occurrence (the JS code keys a
`Map` by `edge.id`; duplicate ids are re-reads of the same stored row). -/
def dedupEdges (es : List (GraphEdge α)) : List (GraphEdge α) :=
  es.foldl (fun acc e => if acc.any fun e2 => e2.id = e.id then acc else acc ++ [e]) []

/-- `GraphManager.getSubgraph(seedNodeIds, hops)`: breadth-first expansion
following edges in both directions, nodes resolved at the end, edges
deduplicated by id. -/
def getSubgraph (s : GraphState α) (seedIds : List String) (hops : Nat) :
    SubgraphResult α :=
  let t := subgraphHops s hops (dedupKeepFirst seedIds) seedIds []
  { nodes := t.1.filterMap (getNode s), edges := dedupEdges t.2 }

/-! ## StreamingHashMemory (src/memory/StreamingHashMemory.ts) -/

/-- `Math.max(0, Math.min(1, x))`. -/
def clamp01 (x : α) : α := max 0 (min 1 x)

/-- A buffered, not-yet-durable karma adjustment. -/
structure KarmaBufferEntry (α : Type) where
  nodeId : String
  delta : α
  timestamp : Int
  source : String
deriving Repr, DecidableEq

/-- Graph plus in-memory karma buffer.  The derived LSH tables are
in-memory accelerator state never read by the flush path's store effects
and are not modelled. -/
structure StreamState (α : Type) where
  graph : GraphState α
  buffer : List (KarmaBufferEntry α)
deriving Repr, DecidableEq

/-- Merge step of `flush`: JS `Map` accumulation
`mergedUpdates.set(id, (mergedUpdates.get(id) ?? 0) + delta)` — add in
place if the key exists, else append. -/
def upsertDelta (m : List (String × α)) (id : String) (d : α) : List (String × α) :=
  match m with
  | [] => [(id, d)]
  | (k, v) :: rest => if k = id then (k, v + d) :: rest else (k, v) :: upsertDelta rest id d

/-- All buffered deltas merged per node, in first-occurrence order. -/
def mergeDeltas (buf : List (KarmaBufferEntry α)) : List (String × α) :=
  buf.foldl (fun m e => upsertDelta m e.nodeId e.delta) []

/-- The update list built by `flush`: nodes still present get
`clamp01(karma + delta)`; merged deltas for missing nodes are dropped. -/
def flushUpdates (g : GraphState α) (merged : List (String × α)) : List (String × α) :=
  merged.filterMap fun u => (getNode g u.1).map fun n => (u.1, clamp01 (n.karma + u.2))

/-- `GraphManager.batchUpdateKarma` as called from `flush`, with the
durable layer's possible failure made explicit: better-sqlite3 runs the
batch in one transaction, so on a storage error it throws and commits
nothing. -/
def batchUpdateKarmaE (g : GraphState α) (updates : List (String × α)) (now : Int)
    (writeOk : Bool) : Except Unit (Nat × GraphState α) :=
  if writeOk then Except.ok (batchUpdateKarma g updates now) else Except.error ()

/-- `StreamingHashMemory.flush`, in source statement order: early return on
an empty buffer; merge; build updates; durable batch write (which may
throw — in that case the function aborts *before* reaching the
buffer-clearing statement, so the state is returned unchanged); LSH
index refresh (derived state, not modelled); clear the buffer. -/
def flush (s : StreamState α) (now : Int) (writeOk : Bool) :
    Except Unit Nat × StreamState α :=
  if s.buffer.length = 0 then (Except.ok 0, s)
  else
    let merged := mergeDeltas s.buffer
    let updates := flushUpdates s.graph merged
    match batchUpdateKarmaE s.graph updates now writeOk with
    | Except.error e => (Except.error e, s)
    | Except.ok r => (Except.ok r.1, { graph := r.2, buffer := [] })

/-- Sum of all buffered deltas for one node (the value `flush`'s merge
phase is meant to produce for it). -/
def totalDelta (buf : List (KarmaBufferEntry α)) (id : String) : α :=
  ((buf.filter fun e => e.nodeId = id).map fun e => e.delta).sum

/-! ## TKAPOCalibrator (src/tkapo/TKAPOCalibrator.ts)

The decay model calls `Math.exp`, so this component is embedded over `ℝ`
with `Real.exp`. -/

/-- Calibrator parameters (constructor options with their defaults in
`defaultTKAPO`). -/
structure TKAPOConfig where
  forgetRate : ℝ
  reinforceRate : ℝ
  reinforceBonus : ℝ
  pruneThreshold : ℝ
  consolidateThreshold : ℝ

/-- The constructor defaults: 0.1 / 0.5 / 0.3 / 0.1 / 0.9. -/
noncomputable def defaultTKAPO : TKAPOConfig :=
  { forgetRate := 1/10, reinforceRate := 1/2, reinforceBonus := 3/10,
    pruneThreshold := 1/10, consolidateThreshold := 9/10 }

/-- One recorded access event. -/
structure AccessEvent where
  nodeId : String
  timestamp : Int
  success : Bool
deriving Repr, DecidableEq

/-- `MS_PER_DAY = 24 * 60 * 60 * 1000`. -/
def msPerDay : ℝ := 86400000

/-- The per-node access history (`accessHistory.get(id) || []`). -/
def historyFor (hist : List (String × List AccessEvent)) (id : String) :
    List AccessEvent :=
  (assocLookup hist id).getD []

/-- `TKAPOCalibrator.calculateDecayedKarma`:
`clamp01(karma·e^(−λ_eff·Δt) + R·successRate·(1 − e^(−α·accessCount)))`
with `λ_eff = forgetRate / (1 + accessCount·0.1)`. -/
noncomputable def calculateDecayedKarma (cfg : TKAPOConfig) (hist : List AccessEvent)
    (node : GraphNode ℝ) (nowMs : Int) : ℝ :=
  let daysSinceUpdate : ℝ := ((nowMs - node.updatedAt : ℤ) : ℝ) / msPerDay
  let successCount : ℕ := (hist.filter fun e => e.success).length
  let accessCount : ℕ := hist.length
  let adjustedForgetRate := cfg.forgetRate / (1 + (accessCount : ℝ) * (1/10))
  let forgetTerm := node.karma * Real.exp (-(adjustedForgetRate * daysSinceUpdate))
  let successRate : ℝ := if 0 < accessCount then (successCount : ℝ) / (accessCount : ℝ) else 0
  let reinforceTerm := cfg.reinforceBonus * successRate *
    (1 - Real.exp (-(cfg.reinforceRate * (accessCount : ℝ))))
  max 0 (min 1 (forgetTerm + reinforceTerm))

/-- The eager karma nudge applied by `recordAccess` via
`updateNodeKarma`: reinforcement `min(1, k + bonus·(1−k))` on success,
decay `k · 0.95` on failure. -/
noncomputable def updateNodeKarmaValue (cfg : TKAPOConfig) (oldKarma : ℝ)
    (success : Bool) : ℝ :=
  if success then min 1 (oldKarma + cfg.reinforceBonus * (1 - oldKarma))
  else oldKarma * (19/20)

/-- `TKAPOCalibrator.updateNodeKarma(nodeId, success)`: read the node,
compute the nudged value, write it back through `updateNode`. -/
noncomputable def updateNodeKarmaOp (cfg : TKAPOConfig) (g : GraphState ℝ)
    (nodeId : String) (success : Bool) (now : Int) : GraphState ℝ :=
  match getNode g nodeId with
  | none => g
  | some node =>
      (updateNode g nodeId { karma := some (updateNodeKarmaValue cfg node.karma success) } now).2

/-- Classification reasons used by `runCalibration`. -/
inductive KarmaReason where
  | decay
  | reinforce
  | prune
  | consolidate
deriving Repr, DecidableEq

/-- One entry of `runCalibration`'s `updates` list. -/
structure KarmaUpdate where
  nodeId : String
  oldKarma : ℝ
  newKarma : ℝ
  reason : KarmaReason

/-- The per-node classification step of `runCalibration`: prune below
`pruneThreshold`, consolidate (to 1.0) above `consolidateThreshold`,
record the decayed value only when it moved by more than 0.01, otherwise
record nothing. -/
noncomputable def classifyNode (cfg : TKAPOConfig)
    (hist : List (String × List AccessEvent)) (nowMs : Int) (node : GraphNode ℝ) :
    Option KarmaUpdate :=
  let newKarma := calculateDecayedKarma cfg (historyFor hist node.id) node nowMs
  if newKarma < cfg.pruneThreshold then
    some { nodeId := node.id, oldKarma := node.karma, newKarma := 0, reason := KarmaReason.prune }
  else if newKarma > cfg.consolidateThreshold then
    some { nodeId := node.id, oldKarma := node.karma, newKarma := 1, reason := KarmaReason.consolidate }
  else if |newKarma - node.karma| > 1/100 then
    some { nodeId := node.id, oldKarma := node.karma, newKarma := newKarma, reason := KarmaReason.decay }
  else none

/-- `runCalibration` result (the store effects plus the three counts; the
average-karma/entropy observability statistics are not modelled). -/
structure CalibrationResult where
  updatedNodes : Nat
  prunedNodes : Nat
  consolidatedNodes : Nat
  graph : GraphState ℝ

/-- `TKAPOCalibrator.runCalibration`: classify every node (from
`getAllNodes(100000)`), apply all non-prune new karmas in one
`batchUpdateKarma` call, then delete the pruned nodes. -/
noncomputable def runCalibration (cfg : TKAPOConfig)
    (hist : List (String × List AccessEvent)) (g : GraphState ℝ) (nowMs : Int) :
    CalibrationResult :=
  let nodes := getAllNodes g 100000
  let updates := nodes.filterMap (classifyNode cfg hist nowMs)
  let toPrune := (updates.filter fun u => u.reason = KarmaReason.prune).map fun u => u.nodeId
  let toConsolidate :=
    (updates.filter fun u => u.reason = KarmaReason.consolidate).map fun u => u.nodeId
  let karmaUpdates :=
    (updates.filter fun u => ¬ u.reason = KarmaReason.prune).map fun u => (u.nodeId, u.newKarma)
  let g1 := (batchUpdateKarma g karmaUpdates nowMs).2
  let g2 := toPrune.foldl (fun gg id => (deleteNode gg id).2) g1
  { updatedNodes := updates.length, prunedNodes := toPrune.length,
    consolidatedNodes := toConsolidate.length, graph := g2 }

/-! ## HSGE (src/graph/HSGE.ts) -/

/-- A cached structural signature (`encodingTime` omitted). -/
structure StructuralSignature where
  id : String
  vector : List Nat
  nodeCount : Nat
  edgeCount : Nat
  centerNodeId : String
  metaConcepts : List String
deriving Repr, DecidableEq

/-- `HSGE.identifyMetaConcepts`: tag the subgraph by counting edges of
the recognized relation kinds. -/
def identifyMetaConcepts (edges : List (GraphEdge α)) : List String :=
  (if (edges.filter fun e => e.relation = "is_a").length > 2
     then ["is_a_hierarchy"] else []) ++
  (if (edges.filter fun e => e.relation = "part_of" ∨ e.relation = "has_a").length > 0
     then ["part_whole"] else []) ++
  (if (edges.filter fun e => e.relation = "causes").length > 0
     then ["cause_effect"] else []) ++
  (if (edges.filter fun e => e.relation.startsWith ("temporal_")).length > 0
     then ["temporal_sequence"] else []) ++
  (if (edges.filter fun e => e.relation = "similar_to").length > 2
     then ["similarity_cluster"] else [])

/-- The triple-encoding pass of `encodeNodeStructure`: for every subgraph
edge whose two endpoints were resolved, encode
`(sourceNode.type, edge.relation, targetNode.type)`, threading the engine
codebooks. -/
def tripleVectorsOf (g : GraphState α) (eng : HDCEngineState) (nodeId : String)
    (hops : Nat) : List (List Nat) × HDCEngineState :=
  let sub := getSubgraph g [nodeId] hops
  sub.edges.foldl
    (fun acc e =>
      match sub.nodes.find? fun n => n.id = e.sourceId,
            sub.nodes.find? fun n => n.id = e.targetId with
      | some sn, some tn =>
          let r := encodeTriple acc.2 sn.type e.relation tn.type
          (acc.1 ++ [r.1], r.2)
      | _, _ => acc)
    ([], eng)

/-- `HSGE.encodeNodeStructure(nodeId, hops)`: return the cached signature
for the key `nodeId + ":" + hops` if present; otherwise encode the live
subgraph (bundling the triple vectors, or a fresh random vector when
there are none) and cache the result. -/
def encodeNodeStructure (g : GraphState α) (eng : HDCEngineState)
    (cache : List (String × StructuralSignature)) (rand : Nat → Nat)
    (coin : Nat → Bool) (nodeId : String) (hops : Nat) :
    StructuralSignature × HDCEngineState × List (String × StructuralSignature) :=
  let cacheKey := nodeId ++ ":" ++ toString hops
  match assocLookup cache cacheKey with
  | some sig => (sig, eng, cache)
  | none =>
      let sub := getSubgraph g [nodeId] hops
      let tv := tripleVectorsOf g eng nodeId hops
      let structureVector :=
        if tv.1.length > 0 then bundle coin eng.dimensions tv.1
        else generateRandomVector rand eng.dimensions
      let sig : StructuralSignature :=
        { id := cacheKey, vector := structureVector, nodeCount := sub.nodes.length,
          edgeCount := sub.edges.length, centerNodeId := nodeId,
          metaConcepts := identifyMetaConcepts sub.edges }
      (sig, tv.2, cache ++ [(cacheKey, sig)])

/-- One entry of an analogy result's node mapping. -/
structure AnalogyMapping (α : Type) where
  sourceNode : String
  targetNode : String
  confidence : α
deriving Repr, DecidableEq

/-- An `AnalogyResult` (`queryTime` omitted). -/
structure AnalogyResult (α : Type) where
  queryId : String
  matchId : String
  similarity : ℚ
  sharedMetaConcepts : List String
  mappings : List (AnalogyMapping α)
deriving Repr, DecidableEq

/-- `HSGE.inferMappings`: greedy type-based mapping between the 1-hop
neighbourhoods, each source node mapped to the highest-karma candidate of
the same type. -/
def inferMappings (g : GraphState α) (sourceNodeId targetNodeId : String) :
    List (AnalogyMapping α) :=
  let sourceSub := getSubgraph g [sourceNodeId] 1
  let targetSub := getSubgraph g [targetNodeId] 1
  sourceSub.nodes.foldl
    (fun acc sn =>
      match sortDescBy (fun n => n.karma) (targetSub.nodes.filter fun n => n.type = sn.type) with
      | [] => acc
      | best :: _ =>
          acc ++ [{ sourceNode := sn.id, targetNode := best.id,
                    confidence := 1/2 + best.karma * (1/2) }])
    []

/-- `HSGE.findAnalogous(queryNodeId, topK, minSimilarity)`: encode the
query (hops = 2), encode every other stored node (candidate set excludes
node ids equal to the query id), filter by similarity, sort descending,
return the top K. -/
def findAnalogous (g : GraphState α) (eng : HDCEngineState)
    (cache : List (String × StructuralSignature)) (rand : Nat → Nat)
    (coin : Nat → Bool) (queryNodeId : String) (topK : Nat) (minSimilarity : ℚ) :
    List (AnalogyResult α) :=
  let q := encodeNodeStructure g eng cache rand coin queryNodeId 2
  let querySig := q.1
  let allNodes := getAllNodes g 1000
  let cands := allNodes.foldl
    (fun (acc : List (String × StructuralSignature) × HDCEngineState ×
                 List (String × StructuralSignature)) node =>
      if ¬ node.id = queryNodeId then
        let r := encodeNodeStructure g acc.2.1 acc.2.2 rand coin node.id 2
        (acc.1 ++ [(node.id, r.1)], r.2.1, r.2.2)
      else acc)
    ([], q.2.1, q.2.2)
  let results := cands.1.foldl
    (fun rs cand =>
      let sim := similarity eng.dimensions querySig.vector cand.2.vector
      if minSimilarity ≤ sim then
        rs ++ [{ queryId := queryNodeId, matchId := cand.1, similarity := sim,
                 sharedMetaConcepts := querySig.metaConcepts.filter
                   (fun m => m ∈ cand.2.metaConcepts),
                 mappings := inferMappings g queryNodeId cand.1 }]
      else rs)
    []
  (sortDescBy (fun r => r.similarity) results).take topK

/-- `HSGE.updateSignature(nodeId)`: drop every cache entry whose key
starts with `nodeId + ":"` (only signatures *centered* at `nodeId`), then
re-encode at the default 2 hops. -/
def updateSignature (g : GraphState α) (eng : HDCEngineState)
    (cache : List (String × StructuralSignature)) (rand : Nat → Nat)
    (coin : Nat → Bool) (nodeId : String) :
    StructuralSignature × HDCEngineState × List (String × StructuralSignature) :=
  let cache1 := cache.filter fun p => ¬ p.1.startsWith (nodeId ++ ":")
  encodeNodeStructure g eng cache1 rand coin nodeId 2

/-! ## Concrete scenarios used by counterexamples and witnesses -/

/-- A constant-zero byte/coin source standing for one run's randomness. -/
def demoRand0 : Nat → Nat := fun _ => 0

/-- A constant-255 byte source standing for a different run's randomness. -/
def demoRand255 : Nat → Nat := fun _ => 255

/-- A tie-break coin stream. -/
def demoCoin : Nat → Bool := fun _ => false

/-- Two typed nodes joined by one edge. -/
def twoNodeGraph : GraphState ℚ :=
  { nodes := [{ id := "a", label := "A", type := "ta", karma := 1, updatedAt := 0 },
              { id := "b", label := "B", type := "tb", karma := 1, updatedAt := 0 }],
    edges := [{ id := "e1", sourceId := "a", targetId := "b", relation := "r",
                weight := 1, karma := 1, updatedAt := 0 }] }

/-- A single isolated node. -/
def isolatedNodeGraph : GraphState ℚ :=
  { nodes := [{ id := "a", label := "A", type := "t", karma := 1, updatedAt := 0 }],
    edges := [] }

/-- Query node `q` and one structural peer `m`. -/
def analogyGraph : GraphState ℚ :=
  { nodes := [{ id := "q", label := "Q", type := "tq", karma := 1, updatedAt := 0 },
              { id := "m", label := "M", type := "tm", karma := 1, updatedAt := 0 }],
    edges := [{ id := "e1", sourceId := "q", targetId := "m", relation := "r",
                weight := 1, karma := 1, updatedAt := 0 }] }

/-- The query-node encoding of the `findAnalogous` witness scenario. -/
def c10Enc0 : StructuralSignature × HDCEngineState × List (String × StructuralSignature) :=
  encodeNodeStructure analogyGraph (freshEngine 8 42) [] demoRand0 demoCoin ("q") 2

/-- The candidate-node encoding, threading the engine state. -/
def c10Enc1 : StructuralSignature × HDCEngineState × List (String × StructuralSignature) :=
  encodeNodeStructure analogyGraph c10Enc0.2.1 c10Enc0.2.2 demoRand0 demoCoin ("m") 2

/-- The single analogy result of the witness scenario. -/
def c10Result : AnalogyResult ℚ :=
  { queryId := "q", matchId := "m",
    similarity := similarity (freshEngine 8 42).dimensions
      c10Enc0.1.vector c10Enc1.1.vector,
    sharedMetaConcepts :=
      c10Enc0.1.metaConcepts.filter fun m => m ∈ c10Enc1.1.metaConcepts,
    mappings := inferMappings analogyGraph ("q") ("m") }

/-- A buffered stream state: one stored node, two buffered deltas for it. -/
def demoStream : StreamState ℚ :=
  { graph := { nodes := [{ id := "n1", label := "A", type := "t",
                           karma := 1/2, updatedAt := 0 }],
               edges := [] },
    buffer := [{ nodeId := "n1", delta := 1/4, timestamp := 0, source := "user" },
               { nodeId := "n1", delta := 1/3, timestamp := 1, source := "user" }] }

/-- The calibrator counterexample node: karma 0.5, last updated at epoch. -/
noncomputable def calibNode : GraphNode ℝ :=
  { id := "n1", label := "A", type := "t", karma := 1/2, updatedAt := 0 }

/-- The calibrator counterexample store. -/
noncomputable def calibGraph : GraphState ℝ := { nodes := [calibNode], edges := [] }

/-! ## Helper lemmas -/

theorem insertDescBy_perm [LinearOrder γ] (key : β → γ) (x : β) (l : List β) :
    (insertDescBy key x l).Perm (x :: l) := by
  induction l with
  | nil => exact List.Perm.refl _
  | cons y ys ih =>
      by_cases h : key y ≤ key x
      · simp [insertDescBy, h]
      · simp only [insertDescBy, if_neg h]
        exact (ih.cons y).trans (List.Perm.swap x y ys)

theorem sortDescBy_perm [LinearOrder γ] (key : β → γ) (l : List β) :
    (sortDescBy key l).Perm l := by
  induction l with
  | nil => exact List.Perm.refl _
  | cons x xs ih =>
      exact (insertDescBy_perm key x (sortDescBy key xs)).trans (ih.cons x)

theorem mem_sortDescBy [LinearOrder γ] (key : β → γ) (l : List β) (a : β) :
    a ∈ sortDescBy key l ↔ a ∈ l :=
  (sortDescBy_perm key l).mem_iff

theorem assocLookup_nil (k : String) :
    assocLookup ([] : List (String × β)) k = none := rfl

theorem assocLookup_cons (k : String) (v : β) (m : List (String × β)) (id : String) :
    assocLookup ((k, v) :: m) id = if k = id then some v else assocLookup m id := by
  by_cases h : k = id <;> simp [assocLookup, List.find?, h]

theorem assocLookup_none_of_not_mem (m : List (String × β)) (id : String)
    (h : id ∉ m.map Prod.fst) : assocLookup m id = none := by
  induction m with
  | nil => rfl
  | cons p rest ih =>
      simp only [List.map_cons, List.mem_cons] at h
      push_neg at h
      rw [show p = (p.1, p.2) from rfl, assocLookup_cons, if_neg (fun hh => h.1 hh.symm)]
      exact ih h.2

theorem assocLookup_map_self (f : String → β) (l : List String) (r : String) :
    assocLookup (l.map fun s => (s, f s)) r = if r ∈ l then some (f r) else none := by
  induction l with
  | nil => simp [assocLookup]
  | cons s rest ih =>
      by_cases h : s = r
      · subst h
        simp [assocLookup_cons]
      · rw [List.map_cons, assocLookup_cons, if_neg h, ih]
        by_cases hm : r ∈ rest
        · simp [hm]
        · have h2 : r ∉ s :: rest := by
            intro hmem
            rcases List.mem_cons.mp hmem with h1 | h1
            · exact h h1.symm
            · exact hm h1
          simp [hm, h2]

theorem find?_map_preserving_id (l : List (GraphNode α)) (f : GraphNode α → GraphNode α)
    (hf : ∀ x, (f x).id = x.id) (id : String) :
    (l.map f).find? (fun n => n.id = id) = (l.find? fun n => n.id = id).map f := by
  induction l with
  | nil => rfl
  | cons x xs ih =>
      by_cases h : x.id = id
      · rw [List.map_cons,
          List.find?_cons_of_pos _ (by simp [hf, h]),
          List.find?_cons_of_pos _ (by simp [h])]
        rfl
      · rw [List.map_cons,
          List.find?_cons_of_neg _ (by simp [hf, h]),
          List.find?_cons_of_neg _ (by simp [h])]
        exact ih

theorem applyUpdates_id (us : List (String × α)) (now : Int) (n : GraphNode α) :
    (applyUpdates us now n).id = n.id := by
  induction us generalizing n with
  | nil => rfl
  | cons u us ih =>
      show (applyUpdates us now (if n.id = u.1 then _ else n)).id = n.id
      by_cases h : n.id = u.1 <;> simp [h, ih]

theorem applyUpdates_of_not_mem (us : List (String × α)) (now : Int) (n : GraphNode α)
    (h : n.id ∉ us.map Prod.fst) : applyUpdates us now n = n := by
  induction us with
  | nil => rfl
  | cons u us ih =>
      simp only [List.map_cons, List.mem_cons] at h
      push_neg at h
      show applyUpdates us now (if n.id = u.1 then _ else n) = n
      rw [if_neg h.1]
      exact ih h.2

theorem applyUpdates_karma (us : List (String × α)) (now : Int) (n : GraphNode α)
    (h : (us.map Prod.fst).Nodup) :
    (applyUpdates us now n).karma = (assocLookup us n.id).getD n.karma := by
  induction us with
  | nil => rfl
  | cons u us ih =>
      simp only [List.map_cons, List.nodup_cons] at h
      show (applyUpdates us now (if n.id = u.1 then _ else n)).karma = _
      rw [show u = (u.1, u.2) from rfl, assocLookup_cons]
      by_cases he : n.id = u.1
      · rw [if_pos he, if_pos he.symm]
        rw [applyUpdates_of_not_mem us now _ (by simpa [he] using h.1)]
        rfl
      · rw [if_neg he, if_neg fun hh => he hh.symm]
        exact ih h.2

theorem getNode_batch_aux (now : Int) (id : String) (us : List (String × α)) :
    ∀ acc : Nat × GraphState α,
      getNode (us.foldl
        (fun acc u =>
          (acc.1 + (acc.2.nodes.filter fun n => n.id = u.1).length,
           { acc.2 with nodes := acc.2.nodes.map fun n =>
               if n.id = u.1 then { n with karma := u.2, updatedAt := now } else n }))
        acc).2 id = (getNode acc.2 id).map (applyUpdates us now) := by
  induction us with
  | nil =>
      intro acc
      simp [applyUpdates]
      cases getNode acc.2 id <;> rfl
  | cons u us ih =>
      intro acc
      rw [List.foldl_cons, ih]
      show ((getNode { acc.2 with nodes := acc.2.nodes.map _ } id).map _) = _
      unfold getNode
      rw [find?_map_preserving_id _ _ (fun x => by by_cases h : x.id = u.1 <;> simp [h]) id]
      rw [Option.map_map]
      rfl

theorem getNode_batchUpdateKarma (s : GraphState α) (us : List (String × α))
    (now : Int) (id : String) :
    getNode (batchUpdateKarma s us now).2 id = (getNode s id).map (applyUpdates us now) :=
  getNode_batch_aux now id us (0, s)

theorem totalDelta_cons (e : KarmaBufferEntry α) (buf : List (KarmaBufferEntry α))
    (id : String) :
    totalDelta (e :: buf) id =
      (if e.nodeId = id then e.delta else 0) + totalDelta buf id := by
  by_cases h : e.nodeId = id <;> simp [totalDelta, h]

theorem assocLookup_upsertDelta (m : List (String × α)) (k id : String) (d : α) :
    assocLookup (upsertDelta m k d) id =
      if id = k then some ((assocLookup m id).getD 0 + d) else assocLookup m id := by
  induction m with
  | nil =>
      by_cases h : id = k
      · subst h
        simp [upsertDelta, assocLookup_cons, assocLookup]
      · have h2 : ¬ k = id := fun hh => h hh.symm
        simp [upsertDelta, assocLookup_cons, h2, h, assocLookup]
  | cons p rest ih =>
      obtain ⟨a, b⟩ := p
      by_cases hk : a = k
      · subst hk
        simp only [upsertDelta, if_pos rfl, if_true]
        by_cases hi : id = a
        · subst hi
          simp [assocLookup_cons]
        · have hi2 : ¬ a = id := fun hh => hi hh.symm
          rw [assocLookup_cons, if_neg hi2, if_neg hi, assocLookup_cons, if_neg hi2]
      · simp only [upsertDelta, if_neg hk]
        by_cases hi : a = id
        · have hik : ¬ id = k := fun hh => hk (hi.trans hh)
          rw [assocLookup_cons, if_pos hi, if_neg hik, assocLookup_cons, if_pos hi]
        · rw [assocLookup_cons, if_neg hi, ih, assocLookup_cons, if_neg hi]

theorem keys_upsertDelta (m : List (String × α)) (k : String) (d : α) :
    (upsertDelta m k d).map Prod.fst =
      if k ∈ m.map Prod.fst then m.map Prod.fst else m.map Prod.fst ++ [k] := by
  induction m with
  | nil => simp [upsertDelta]
  | cons p rest ih =>
      obtain ⟨a, b⟩ := p
      by_cases hk : a = k
      · simp [upsertDelta, hk]
      · have hk2 : ¬ k = a := fun hh => hk hh.symm
        simp only [upsertDelta, if_neg hk, List.map_cons, ih]
        by_cases hm : k ∈ rest.map Prod.fst
        · simp [hm, hk2]
        · simp [hm, hk2]

theorem keys_upsertDelta_nodup (m : List (String × α)) (k : String) (d : α)
    (h : (m.map Prod.fst).Nodup) : ((upsertDelta m k d).map Prod.fst).Nodup := by
  rw [keys_upsertDelta]
  by_cases hm : k ∈ m.map Prod.fst
  · simpa [hm]
  · simpa [hm, List.nodup_append] using h

theorem mergeDeltas_aux (id : String) :
    ∀ (buf : List (KarmaBufferEntry α)) (m : List (String × α)),
      assocLookup (buf.foldl (fun m e => upsertDelta m e.nodeId e.delta) m) id =
        if (buf.filter fun e => e.nodeId = id) = [] then assocLookup m id
        else some ((assocLookup m id).getD 0 + totalDelta buf id) := by
  intro buf
  induction buf with
  | nil => intro m; simp
  | cons e buf ih =>
      intro m
      rw [List.foldl_cons, ih]
      by_cases he : e.nodeId = id
      · have hfil : ((e :: buf).filter fun x => x.nodeId = id) = e :: (buf.filter fun x => x.nodeId = id) := by
          simp [List.filter, he]
        have hup := assocLookup_upsertDelta m e.nodeId id e.delta
        rw [if_pos he.symm] at hup
        rw [hfil, if_neg (List.cons_ne_nil e _), totalDelta_cons, if_pos he]
        by_cases hb : (buf.filter fun x => x.nodeId = id) = []
        · have htd : totalDelta buf id = 0 := by simp [totalDelta, hb]
          rw [if_pos hb, hup, htd]
          congr 1
          ring
        · rw [if_neg hb, hup]
          simp only [Option.getD_some]
          congr 1
          ring
      · have hfil : ((e :: buf).filter fun x => x.nodeId = id) = buf.filter fun x => x.nodeId = id := by
          simp [List.filter, he]
        have hup := assocLookup_upsertDelta m e.nodeId id e.delta
        rw [if_neg (fun hh => he hh.symm)] at hup
        rw [hfil, hup, totalDelta_cons, if_neg he, zero_add]

theorem mergeDeltas_lookup (buf : List (KarmaBufferEntry α)) (id : String) :
    assocLookup (mergeDeltas buf) id =
      if (buf.filter fun e => e.nodeId = id) = [] then none
      else some (totalDelta buf id) := by
  unfold mergeDeltas
  rw [mergeDeltas_aux]
  by_cases hb : (buf.filter fun e => e.nodeId = id) = [] <;>
    simp [hb, assocLookup]

theorem mergeDeltas_keys_nodup (buf : List (KarmaBufferEntry α)) :
    ((mergeDeltas buf).map Prod.fst).Nodup := by
  have h : ∀ (l : List (KarmaBufferEntry α)) (m : List (String × α)),
      (m.map Prod.fst).Nodup →
      ((l.foldl (fun m e => upsertDelta m e.nodeId e.delta) m).map Prod.fst).Nodup := by
    intro l
    induction l with
    | nil => intro m hm; exact hm
    | cons e l ih =>
        intro m hm
        exact ih _ (keys_upsertDelta_nodup m e.nodeId e.delta hm)
  exact h buf [] (by simp)

theorem flushUpdates_keys_sublist (g : GraphState α) (merged : List (String × α)) :
    ((flushUpdates g merged).map Prod.fst).Sublist (merged.map Prod.fst) := by
  induction merged with
  | nil => simp [flushUpdates]
  | cons u rest ih =>
      show ((List.filterMap _ (u :: rest)).map Prod.fst).Sublist _
      rw [List.filterMap_cons]
      cases hg : getNode g u.1 with
      | none =>
          simp only [hg, Option.map_none']
          exact ih.cons u.1
      | some n =>
          simp only [hg, Option.map_some']
          exact ih.cons₂ u.1

theorem flushUpdates_cons (g : GraphState α) (u : String × α)
    (rest : List (String × α)) :
    flushUpdates g (u :: rest) =
      match getNode g u.1 with
      | some n => (u.1, clamp01 (n.karma + u.2)) :: flushUpdates g rest
      | none => flushUpdates g rest := by
  cases hg : getNode g u.1 <;>
    simp [flushUpdates, List.filterMap_cons, hg]

theorem assocLookup_flushUpdates (g : GraphState α) (merged : List (String × α))
    (id : String) (h : (merged.map Prod.fst).Nodup) :
    assocLookup (flushUpdates g merged) id =
      match assocLookup merged id, getNode g id with
      | some d, some n => some (clamp01 (n.karma + d))
      | some _, none => none
      | none, _ => none := by
  induction merged with
  | nil => simp [flushUpdates, assocLookup]
  | cons u rest ih =>
      simp only [List.map_cons, List.nodup_cons] at h
      rw [show u = (u.1, u.2) from rfl, assocLookup_cons, flushUpdates_cons]
      by_cases he : u.1 = id
      · subst he
        cases hg : getNode g u.1 with
        | none =>
            simp only [hg, if_true]
            rw [assocLookup_none_of_not_mem _ u.1
              (fun hm => h.1 ((flushUpdates_keys_sublist g rest).mem hm))]
        | some n =>
            simp only [hg, if_true]
            rw [assocLookup_cons, if_pos rfl]
      · rw [if_neg he]
        cases hg : getNode g u.1 with
        | none => simpa only [hg] using ih h.2
        | some n =>
            simp only [hg]
            rw [assocLookup_cons, if_neg he]
            exact ih h.2

theorem find?_filter_ne (l : List (GraphNode α)) (i id : String) :
    ((l.filter fun n => ¬ n.id = i).find? fun n => n.id = id) =
      if id = i then none else l.find? fun n => n.id = id := by
  induction l with
  | nil => by_cases h : id = i <;> simp [h]
  | cons n ns ih =>
      by_cases hn : n.id = i
      · rw [List.filter_cons_of_neg (by simp [hn])]
        rw [ih]
        by_cases h : id = i
        · simp [h]
        · rw [if_neg h, if_neg h,
            List.find?_cons_of_neg _ (by simp [show ¬ n.id = id from
              fun hh => h (hh.symm.trans hn)])]
      · rw [List.filter_cons_of_pos (by simp [hn])]
        by_cases hm : n.id = id
        · have h2 : ¬ id = i := fun hh => hn (hm.trans hh)
          rw [List.find?_cons_of_pos _ (by simp [hm]), if_neg h2,
            List.find?_cons_of_pos _ (by simp [hm])]
        · rw [List.find?_cons_of_neg _ (by simp [hm]), ih]
          by_cases h : id = i
          · simp [h]
          · rw [if_neg h, if_neg h, List.find?_cons_of_neg _ (by simp [hm])]

theorem getNode_deleteNode (s : GraphState α) (i id : String) :
    getNode (deleteNode s i).2 id = if id = i then none else getNode s id :=
  find?_filter_ne s.nodes i id

theorem getNode_id_eq (g : GraphState α) (id : String) (n : GraphNode α)
    (h : getNode g id = some n) : n.id = id := by
  have := List.find?_some h
  simpa using this

theorem flush_buffer_empty (s : StreamState α) (now : Int) :
    (flush s now true).2.buffer = [] := by
  by_cases hb : s.buffer.length = 0
  · simp only [flush, if_pos hb]
    exact List.length_eq_zero.mp hb
  · have hne : ¬ s.buffer = [] := fun h => hb (by simp [h])
    simp [flush, hb, hne, batchUpdateKarmaE]

theorem flush_getNode_karma (g : GraphState α) (buf : List (KarmaBufferEntry α))
    (now : Int) (id : String) :
    (getNode (flush { graph := g, buffer := buf } now true).2.graph id).map
        (fun m => m.karma) =
      (getNode g id).map fun n =>
        if (buf.filter fun e => e.nodeId = id) = [] then n.karma
        else clamp01 (n.karma + totalDelta buf id) := by
  have hnodup : ((flushUpdates g (mergeDeltas buf)).map Prod.fst).Nodup :=
    (flushUpdates_keys_sublist g (mergeDeltas buf)).nodup (mergeDeltas_keys_nodup buf)
  by_cases hb : buf.length = 0
  · have hbe : buf = [] := List.length_eq_zero.mp hb
    subst hbe
    simp only [flush, if_pos rfl]
    cases hg : getNode g id <;> simp [hg]
  · show (getNode (flush ⟨g, buf⟩ now true).2.graph id).map _ = _
    simp only [flush, if_neg hb, batchUpdateKarmaE, if_true]
    rw [getNode_batchUpdateKarma, Option.map_map]
    cases hg : getNode g id with
    | none => rfl
    | some n =>
        simp only [Option.map_some', Function.comp]
        congr 1
        rw [applyUpdates_karma _ _ _ hnodup,
          assocLookup_flushUpdates _ _ _ (mergeDeltas_keys_nodup buf),
          getNode_id_eq g id n hg, mergeDeltas_lookup]
        by_cases hf : (buf.filter fun e => e.nodeId = id) = []
        · simp [hf]
        · simp [hf, hg]

theorem batch_graph_count_indep (now : Int) (us : List (String × α)) :
    ∀ (c1 c2 : Nat) (g : GraphState α),
      (us.foldl (fun acc u =>
          (acc.1 + (acc.2.nodes.filter fun n => n.id = u.1).length,
           { acc.2 with nodes := acc.2.nodes.map fun n =>
               if n.id = u.1 then { n with karma := u.2, updatedAt := now } else n }))
        (c1, g)).2 =
      (us.foldl (fun acc u =>
          (acc.1 + (acc.2.nodes.filter fun n => n.id = u.1).length,
           { acc.2 with nodes := acc.2.nodes.map fun n =>
               if n.id = u.1 then { n with karma := u.2, updatedAt := now } else n }))
        (c2, g)).2 := by
  induction us with
  | nil => intro c1 c2 g; rfl
  | cons u us ih => intro c1 c2 g; exact ih _ _ _

theorem batchUpdateKarma_nodes_prop (P : α → Prop) (now : Int) :
    ∀ (us : List (String × α)) (g : GraphState α),
      (∀ n ∈ g.nodes, P n.karma) → (∀ u ∈ us, P u.2) →
      ∀ m ∈ (batchUpdateKarma g us now).2.nodes, P m.karma := by
  intro us
  induction us with
  | nil => intro g hg _ m hm; exact hg m hm
  | cons u us ih =>
      intro g hg hu m hm
      have hstep : ∀ m ∈ ({ g with nodes := g.nodes.map fun n =>
          if n.id = u.1 then { n with karma := u.2, updatedAt := now } else n } :
            GraphState α).nodes, P m.karma := by
        intro m hm
        rcases List.mem_map.mp hm with ⟨n, hn, rfl⟩
        by_cases h : n.id = u.1
        · simpa [h] using hu u (List.mem_cons_self u us)
        · simpa [h] using hg n hn
      have hrw : (batchUpdateKarma g (u :: us) now).2 =
          (batchUpdateKarma { g with nodes := g.nodes.map fun n =>
            if n.id = u.1 then { n with karma := u.2, updatedAt := now } else n } us now).2 := by
        unfold batchUpdateKarma
        rw [List.foldl_cons]
        exact batch_graph_count_indep now us _ _ _
      rw [hrw] at hm
      exact ih _ hstep (fun v hv => hu v (List.mem_cons_of_mem u hv)) m hm

theorem find?_of_mem_nodup (l : List (GraphNode α))
    (h : (l.map fun n => n.id).Nodup) (n : GraphNode α) (hn : n ∈ l) :
    (l.find? fun m => m.id = n.id) = some n := by
  induction l with
  | nil => cases hn
  | cons x ns ih =>
      simp only [List.map_cons, List.nodup_cons] at h
      rcases List.mem_cons.mp hn with rfl | hn2
      · exact List.find?_cons_of_pos _ (by simp)
      · have hne : ¬ x.id = n.id := fun he =>
          h.1 (he ▸ List.mem_map.mpr ⟨n, hn2, rfl⟩)
        rw [List.find?_cons_of_neg _ (by simp [hne])]
        exact ih h.2 hn2

theorem getNode_of_mem_nodup (s : GraphState α)
    (h : (s.nodes.map fun n => n.id).Nodup) (n : GraphNode α) (hn : n ∈ s.nodes) :
    getNode s n.id = some n :=
  find?_of_mem_nodup s.nodes h n hn

theorem classifyNode_nodeId (cfg : TKAPOConfig)
    (hist : List (String × List AccessEvent)) (nowMs : Int) (node : GraphNode ℝ)
    (u : KarmaUpdate) (h : classifyNode cfg hist nowMs node = some u) :
    u.nodeId = node.id := by
  simp only [classifyNode] at h
  split_ifs at h <;> (cases h; rfl)

theorem calib_keys_sublist (cfg : TKAPOConfig)
    (hist : List (String × List AccessEvent)) (nowMs : Int) :
    ∀ nodes : List (GraphNode ℝ),
      (((((nodes.filterMap (classifyNode cfg hist nowMs)).filter
          fun u => ¬ u.reason = KarmaReason.prune).map
          fun u => (u.nodeId, u.newKarma)).map Prod.fst)).Sublist
        (nodes.map fun n => n.id) := by
  intro nodes
  induction nodes with
  | nil => simp
  | cons x ns ih =>
      rw [List.filterMap_cons]
      cases hc : classifyNode cfg hist nowMs x with
      | none => exact ih.cons x.id
      | some u =>
          by_cases hr : u.reason = KarmaReason.prune
          · rw [List.filter_cons_of_neg (by simp [hr])]
            exact ih.cons x.id
          · rw [List.filter_cons_of_pos (by simp [hr])]
            simp only [List.map_cons, classifyNode_nodeId cfg hist nowMs x u hc]
            exact ih.cons₂ x.id

theorem calib_lookup (cfg : TKAPOConfig)
    (hist : List (String × List AccessEvent)) (nowMs : Int) :
    ∀ nodes : List (GraphNode ℝ), (nodes.map fun n => n.id).Nodup →
      ∀ n ∈ nodes,
      assocLookup (((nodes.filterMap (classifyNode cfg hist nowMs)).filter
          fun u => ¬ u.reason = KarmaReason.prune).map
          fun u => (u.nodeId, u.newKarma)) n.id =
        match classifyNode cfg hist nowMs n with
        | some u => if u.reason = KarmaReason.prune then none else some u.newKarma
        | none => none := by
  intro nodes
  induction nodes with
  | nil => intro _ n hn; cases hn
  | cons x ns ih =>
      intro hnd n hn
      simp only [List.map_cons, List.nodup_cons] at hnd
      rw [List.filterMap_cons]
      rcases List.mem_cons.mp hn with rfl | hn2
      · cases hc : classifyNode cfg hist nowMs n with
        | none =>
            rw [assocLookup_none_of_not_mem _ n.id
              (fun hm => hnd.1 ((calib_keys_sublist cfg hist nowMs ns).mem hm))]
        | some u =>
            have hid := classifyNode_nodeId cfg hist nowMs n u hc
            by_cases hr : u.reason = KarmaReason.prune
            · rw [List.filter_cons_of_neg (by simp [hr])]
              rw [assocLookup_none_of_not_mem _ n.id
                (fun hm => hnd.1 ((calib_keys_sublist cfg hist nowMs ns).mem hm))]
              simp [hr]
            · rw [List.filter_cons_of_pos (by simp [hr])]
              simp only [List.map_cons, hid]
              rw [assocLookup_cons, if_pos rfl]
              simp [hr]
      · have hne : ¬ n.id ∈ [x.id] → True := fun _ => trivial
        have hxid : ¬ x.id = n.id := fun he =>
          hnd.1 (he ▸ List.mem_map.mpr ⟨n, hn2, rfl⟩)
        cases hc : classifyNode cfg hist nowMs x with
        | none => exact ih hnd.2 n hn2
        | some u =>
            have hid := classifyNode_nodeId cfg hist nowMs x u hc
            by_cases hr : u.reason = KarmaReason.prune
            · rw [List.filter_cons_of_neg (by simp [hr])]
              exact ih hnd.2 n hn2
            · rw [List.filter_cons_of_pos (by simp [hr])]
              simp only [List.map_cons]
              rw [assocLookup_cons, if_neg (hid ▸ hxid)]
              exact ih hnd.2 n hn2

theorem calib_mem_toPrune (cfg : TKAPOConfig)
    (hist : List (String × List AccessEvent)) (nowMs : Int)
    (nodes : List (GraphNode ℝ)) (hnd : (nodes.map fun n => n.id).Nodup)
    (n : GraphNode ℝ) (hn : n ∈ nodes) :
    (n.id ∈ ((nodes.filterMap (classifyNode cfg hist nowMs)).filter
        fun u => u.reason = KarmaReason.prune).map fun u => u.nodeId) ↔
      ∃ u, classifyNode cfg hist nowMs n = some u ∧ u.reason = KarmaReason.prune := by
  constructor
  · intro hm
    rcases List.mem_map.mp hm with ⟨u, hu, hid⟩
    rcases List.mem_filter.mp hu with ⟨hu2, hr⟩
    rcases List.mem_filterMap.mp hu2 with ⟨m, hmem, hcl⟩
    have : m = n := by
      refine List.inj_on_of_nodup_map hnd hmem hn ?_
      rw [← (classifyNode_nodeId cfg hist nowMs m u hcl), hid]
    subst this
    exact ⟨u, hcl, by simpa using hr⟩
  · rintro ⟨u, hcl, hr⟩
    refine List.mem_map.mpr ⟨u, ?_, classifyNode_nodeId cfg hist nowMs n u hcl⟩
    exact List.mem_filter.mpr ⟨List.mem_filterMap.mpr ⟨n, hn, hcl⟩, by simp [hr]⟩

theorem bundle_indep_of_odd (dims : Nat) (vs : List (List Nat)) (h : Odd vs.length)
    (c1 c2 : Nat → Bool) : bundle c1 dims vs = bundle c2 dims vs := by
  match vs with
  | [] =>
      obtain ⟨m, hm⟩ := h
      simp at hm
  | [v] => rfl
  | v1 :: v2 :: rest =>
      obtain ⟨m, hm⟩ := h
      simp only [bundle]
      congr 1
      funext byteIdx
      congr 1
      funext acc bitIdx
      refine if_congr ?_ rfl rfl
      have hC : ¬ 2 * bitCount (v1 :: v2 :: rest) (byteIdx * 8 + bitIdx) =
          (v1 :: v2 :: rest).length := by
        intro hEq
        omega
      constructor
      · rintro ⟨h1, h2 | ⟨h2, _⟩⟩
        · exact ⟨h1, Or.inl h2⟩
        · exact absurd h2 hC
      · rintro ⟨h1, h2 | ⟨h2, _⟩⟩
        · exact ⟨h1, Or.inl h2⟩
        · exact absurd h2 hC

theorem getNode_foldl_delete (ids : List String) :
    ∀ (g : GraphState α) (id : String),
      getNode (ids.foldl (fun gg i => (deleteNode gg i).2) g) id =
        if id ∈ ids then none else getNode g id := by
  induction ids with
  | nil => intro g id; simp
  | cons i ids ih =>
      intro g id
      rw [List.foldl_cons, ih]
      by_cases h : id ∈ ids
      · simp [h]
      · rw [if_neg h, getNode_deleteNode]
        by_cases he : id = i <;> simp [he, h]

theorem foldl_mem_prop {β γ : Type} (P : γ → Prop) (step : List γ → β → List γ) :
    ∀ (l : List β) (acc : List γ),
      (∀ x ∈ acc, P x) →
      (∀ b ∈ l, ∀ acc2, (∀ x ∈ acc2, P x) → ∀ x ∈ step acc2 b, P x) →
      ∀ x ∈ l.foldl step acc, P x := by
  intro l
  induction l with
  | nil => intro acc h _; exact h
  | cons b l ih =>
      intro acc h hstep
      exact ih _ (hstep b (List.mem_cons_self b l) acc h)
        fun b2 hb2 => hstep b2 (List.mem_cons_of_mem b hb2)

theorem foldl_tuple_mem_prop {β γ δ : Type} (P : γ → Prop)
    (step : List γ × δ → β → List γ × δ) :
    ∀ (l : List β) (acc : List γ × δ),
      (∀ x ∈ acc.1, P x) →
      (∀ b acc2, (∀ x ∈ acc2.1, P x) → ∀ x ∈ (step acc2 b).1, P x) →
      ∀ x ∈ (l.foldl step acc).1, P x := by
  intro l
  induction l with
  | nil => intro acc h _; exact h
  | cons b l ih =>
      intro acc h hstep
      exact ih _ (hstep b acc h) hstep

/-! ## Claim theorems -/

/-- C1: the spec says `addEdge` with a missing endpoint fails with a
`ReferenceError` and stores nothing.  The code performs no endpoint check
and the schema's foreign keys are never enabled, so on an *empty* store
`addEdge("n1","n2",...)` silently succeeds and the dangling edge is
stored. -/
theorem c1_addEdge_missing_endpoints_inserts :
    getNode (⟨[], []⟩ : GraphState ℚ) ("n1") = none ∧
    getNode (⟨[], []⟩ : GraphState ℚ) ("n2") = none ∧
    (addEdge (⟨[], []⟩ : GraphState ℚ) ("e1") ("n1") ("n2") ("r") 1 1 0).2.edges =
      [{ id := "e1", sourceId := "n1", targetId := "n2", relation := "r",
         weight := 1, karma := 1, updatedAt := 0 }] := by
  exact ⟨rfl, rfl, rfl⟩

/-- C2: the spec says deleting a node cascades to its incident edges, and
that no reachable state contains a dangling edge.  Through the public
operations (`addNode`, `addNode`, `addEdge`, `deleteNode`) the store
reaches a state whose only edge references the deleted node `n1`: the
SQL `ON DELETE CASCADE` is declared but never enabled, and `deleteNode`
touches only the `nodes` table. -/
theorem c2_deleteNode_leaves_dangling_edges :
    (let g1 := (addNode (⟨[], []⟩ : GraphState ℚ) ("n1") ("A") ("t") 1 0).2
     let g2 := (addNode g1 ("n2") ("B") ("t") 1 0).2
     let g3 := (addEdge g2 ("e1") ("n1") ("n2") ("r") 1 1 0).2
     let g4 := (deleteNode g3 ("n1")).2
     (deleteNode g3 ("n1")).1 = true ∧
     getNode g4 ("n1") = none ∧
     g4.edges = [{ id := "e1", sourceId := "n1", targetId := "n2", relation := "r",
                   weight := 1, karma := 1, updatedAt := 0 }]) := by
  exact ⟨rfl, rfl, rfl⟩

/-- C3 counterexample: the claim says every stored node weight and edge
karma lies in [0,1] after any write, including `updateNode` and
`updateEdgeKarma`.  Neither operation validates or clamps: writing karma
3/2 through either stores 3/2. -/
theorem c3_counterexample :
    (let g : GraphState ℚ :=
       ⟨[{ id := "n1", label := "A", type := "t", karma := 1, updatedAt := 0 }], []⟩
     let g2 := (updateNode g ("n1") { karma := some (3/2) } 5).2
     (getNode g2 ("n1")).map (fun n => n.karma) = some (3/2)) ∧
    (let ge : GraphState ℚ :=
       ⟨[], [{ id := "e1", sourceId := "a", targetId := "b", relation := "r",
               weight := 1, karma := 1, updatedAt := 0 }]⟩
     let ge2 := (updateEdgeKarma ge ("e1") (3/2) 5).2
     ge2.edges.map (fun e => e.karma) = [3/2]) ∧
    ¬ ((3 : ℚ)/2 ≤ 1) := by
  refine ⟨by rfl, by rfl, by norm_num⟩

theorem clamp01_mem (x : α) : 0 ≤ clamp01 x ∧ clamp01 x ≤ 1 :=
  ⟨le_max_left 0 _, max_le zero_le_one (min_le_left 1 x)⟩

theorem flushUpdates_val_mem (g : GraphState α) (merged : List (String × α))
    (u : String × α) (hu : u ∈ flushUpdates g merged) : 0 ≤ u.2 ∧ u.2 ≤ 1 := by
  rcases List.mem_filterMap.mp hu with ⟨a, _, hopt⟩
  cases hg : getNode g a.1 with
  | none => rw [hg] at hopt; cases hopt
  | some n =>
      rw [hg] at hopt
      cases hopt
      exact clamp01_mem _

/-- C3 (amended): clamping to [0,1] happens only on the decay and
reinforcement paths — the `recordAccess` karma nudge, the calibrator's
`calculateDecayedKarma`, and `flush`'s buffered-delta application — while
the raw GraphStore writes (`addNode` / `updateNode` / `updateEdgeKarma` /
`batchUpdateKarma`) store the caller's value unvalidated. -/
theorem c3_amended :
    (∀ cfg : TKAPOConfig, 0 ≤ cfg.reinforceBonus → ∀ k : ℝ, 0 ≤ k → k ≤ 1 →
      ∀ succ : Bool, 0 ≤ updateNodeKarmaValue cfg k succ ∧
        updateNodeKarmaValue cfg k succ ≤ 1) ∧
    (∀ (cfg : TKAPOConfig) (hist : List AccessEvent) (node : GraphNode ℝ)
        (nowMs : Int),
      0 ≤ calculateDecayedKarma cfg hist node nowMs ∧
        calculateDecayedKarma cfg hist node nowMs ≤ 1) ∧
    (∀ (s : StreamState α) (now : Int),
      (∀ n ∈ s.graph.nodes, 0 ≤ n.karma ∧ n.karma ≤ 1) →
      ∀ m ∈ (flush s now true).2.graph.nodes, 0 ≤ m.karma ∧ m.karma ≤ 1) := by
  refine ⟨?_, ?_, ?_⟩
  · intro cfg hb k hk0 hk1 succ
    cases succ with
    | true =>
        constructor
        · refine le_min zero_le_one ?_
          nlinarith [mul_nonneg hb (by linarith : (0:ℝ) ≤ 1 - k)]
        · exact min_le_left 1 _
    | false =>
        constructor
        · show 0 ≤ k * (19/20)
          nlinarith
        · show k * (19/20) ≤ 1
          nlinarith
  · intro cfg hist node nowMs
    exact ⟨le_max_left 0 _, max_le zero_le_one (min_le_left 1 _)⟩
  · intro s now hrange m hm
    by_cases hb : s.buffer.length = 0
    · have : (flush s now true).2.graph = s.graph := by
        simp only [flush, if_pos hb]
      rw [this] at hm
      exact hrange m hm
    · have hgr : (flush s now true).2.graph =
          (batchUpdateKarma s.graph
            (flushUpdates s.graph (mergeDeltas s.buffer)) now).2 := by
        simp only [flush, if_neg hb, batchUpdateKarmaE, if_true]
      rw [hgr] at hm
      exact batchUpdateKarma_nodes_prop (fun x => 0 ≤ x ∧ x ≤ 1) now _ s.graph hrange
        (fun u hu => flushUpdates_val_mem s.graph _ u hu) m hm

/-- C3 witness: concrete instantiations of the three clamped paths. -/
theorem c3_witness :
    ((0:ℝ) ≤ defaultTKAPO.reinforceBonus ∧ (0:ℝ) ≤ 1/2 ∧ (1:ℝ)/2 ≤ 1 ∧
      (∀ n ∈ demoStream.graph.nodes, 0 ≤ n.karma ∧ n.karma ≤ 1)) ∧
    (0 ≤ updateNodeKarmaValue defaultTKAPO (1/2) true ∧
      updateNodeKarmaValue defaultTKAPO (1/2) true ≤ 1) ∧
    (0 ≤ calculateDecayedKarma defaultTKAPO [] calibNode 0 ∧
      calculateDecayedKarma defaultTKAPO [] calibNode 0 ≤ 1) ∧
    (∀ m ∈ (flush demoStream 0 true).2.graph.nodes, 0 ≤ m.karma ∧ m.karma ≤ 1) := by
  have hb : (0:ℝ) ≤ defaultTKAPO.reinforceBonus := by
    show (0:ℝ) ≤ 3/10
    norm_num
  have hk0 : (0:ℝ) ≤ 1/2 := by norm_num
  have hk1 : (1:ℝ)/2 ≤ 1 := by norm_num
  have hrange : ∀ n ∈ demoStream.graph.nodes, 0 ≤ n.karma ∧ n.karma ≤ 1 := by
    intro n hn
    rcases List.mem_singleton.mp hn with rfl
    constructor <;> norm_num
  exact ⟨⟨hb, hk0, hk1, hrange⟩,
    (@c3_amended ℚ _).1 defaultTKAPO hb (1/2) hk0 hk1 true,
    (@c3_amended ℚ _).2.1 defaultTKAPO [] calibNode 0,
    (@c3_amended ℚ _).2.2 demoStream 0 hrange⟩

/-- C4: the spec requires that mutating anything in a signature's
neighbourhood invalidates the cached signature.  The cache is keyed by
`(nodeId, hops)` and no GraphStore mutation touches it: after deleting
the only edge of `a`'s neighbourhood, `encodeNodeStructure("a", 1)`
still returns the stale cached signature (edge count 1), while a fresh
encoder run against the live graph reports edge count 0. -/
theorem c4_stale_signature_cache :
    (let r1 := encodeNodeStructure twoNodeGraph (freshEngine 8 42) []
       demoRand0 demoCoin ("a") 1
     let g2 := (deleteEdge twoNodeGraph ("e1")).2
     let r2 := encodeNodeStructure g2 r1.2.1 r1.2.2 demoRand0 demoCoin ("a") 1
     let freshRun := encodeNodeStructure g2 (freshEngine 8 42) []
       demoRand0 demoCoin ("a") 1
     r2.1 = r1.1 ∧ r1.1.edgeCount = 1 ∧ freshRun.1.edgeCount = 0 ∧ g2.edges = []) := by
  decide

/-- C5: when the durable batch write inside `StreamingHashMemory.flush`
throws a `StorageError`, the exception propagates before the
buffer-clearing statement runs, so the karma buffer (and the store) are
left exactly as they were and an immediate retry behaves as a flush of
the original state. -/
theorem c5_flush_error_preserves_buffer (s : StreamState α) (now now2 : Int)
    (h : ¬ s.buffer = []) :
    (flush s now false).1 = Except.error () ∧
    (flush s now false).2 = s ∧
    flush (flush s now false).2 now2 true = flush s now2 true := by
  have hb : ¬ s.buffer.length = 0 := fun hh => h (List.length_eq_zero.mp hh)
  have h1 : flush s now false = (Except.error (), s) := by
    simp [flush, hb, h, batchUpdateKarmaE]
  rw [h1]
  exact ⟨rfl, rfl, rfl⟩

/-- C5 witness: the concrete buffered state. -/
theorem c5_witness :
    ¬ demoStream.buffer = [] ∧ (flush demoStream 0 false).2 = demoStream :=
  ⟨by decide, (c5_flush_error_preserves_buffer demoStream 0 1 (by decide)).2.1⟩

/-- C6: a successful `flush` empties the buffer and, for every stored
node, applies the *sum* of its buffered deltas exactly once, clamped to
[0,1] (nodes with no buffered delta are untouched); buffering the same
deltas in any permuted order yields the same stored weight for every
node id. -/
theorem c6_flush_merges_sums_clamps_orderfree (s : StreamState α) (now : Int) :
    (flush s now true).2.buffer = [] ∧
    (∀ (id : String) (n : GraphNode α), getNode s.graph id = some n →
      (getNode (flush s now true).2.graph id).map (fun m => m.karma) =
        some (if (s.buffer.filter fun e => e.nodeId = id) = [] then n.karma
              else clamp01 (n.karma + totalDelta s.buffer id))) ∧
    (∀ buf2 : List (KarmaBufferEntry α), s.buffer.Perm buf2 → ∀ id : String,
      (getNode (flush { graph := s.graph, buffer := buf2 } now true).2.graph id).map
          (fun m => m.karma) =
        (getNode (flush s now true).2.graph id).map fun m => m.karma) := by
  obtain ⟨g, buf⟩ := s
  refine ⟨flush_buffer_empty _ now, ?_, ?_⟩
  · intro id n hg
    rw [flush_getNode_karma, hg]
    rfl
  · intro buf2 hp id
    rw [flush_getNode_karma, flush_getNode_karma]
    cases hg : getNode g id with
    | none => rfl
    | some n =>
        simp only [Option.map_some']
        congr 1
        have hfil : (buf.filter fun e => e.nodeId = id).Perm
            (buf2.filter fun e => e.nodeId = id) := hp.filter _
        have hsum : totalDelta buf id = totalDelta buf2 id := by
          unfold totalDelta
          exact (hfil.map fun e => e.delta).sum_eq
        by_cases hf : (buf.filter fun e => e.nodeId = id) = []
        · have hf2 : (buf2.filter fun e => e.nodeId = id) = [] :=
            List.Perm.eq_nil (hf ▸ hfil.symm)
          rw [if_pos hf, if_pos hf2]
        · have hf2 : ¬ (buf2.filter fun e => e.nodeId = id) = [] := fun hh =>
            hf (List.Perm.eq_nil (hh ▸ hfil))
          rw [if_neg hf, if_neg hf2, hsum]

/-- C6 witness: two buffered deltas for node `n1` (1/4 and 1/3) merge to
7/12 and clamp `1/2 + 7/12` to 1; flushing them in swapped order stores
the same weight. -/
theorem c6_witness :
    getNode demoStream.graph ("n1") =
      some { id := "n1", label := "A", type := "t", karma := 1/2, updatedAt := 0 } ∧
    demoStream.buffer.Perm
      [{ nodeId := "n1", delta := 1/3, timestamp := 1, source := "user" },
       { nodeId := "n1", delta := 1/4, timestamp := 0, source := "user" }] ∧
    ((getNode (flush demoStream 0 true).2.graph ("n1")).map (fun m => m.karma) =
      some (if (demoStream.buffer.filter fun e => e.nodeId = "n1") = []
            then (1/2 : ℚ)
            else clamp01 (1/2 + totalDelta demoStream.buffer ("n1")))) ∧
    ((getNode (flush (⟨demoStream.graph,
        [{ nodeId := "n1", delta := 1/3, timestamp := 1, source := "user" },
         { nodeId := "n1", delta := 1/4, timestamp := 0, source := "user" }]⟩ :
          StreamState ℚ)
        0 true).2.graph ("n1")).map (fun m => m.karma) =
      (getNode (flush demoStream 0 true).2.graph ("n1")).map fun m => m.karma) :=
  ⟨by rfl,
   List.Perm.swap _ _ _,
   (c6_flush_merges_sums_clamps_orderfree demoStream 0).2.1 ("n1")
     { id := "n1", label := "A", type := "t", karma := 1/2, updatedAt := 0 } (by rfl),
   (c6_flush_merges_sums_clamps_orderfree demoStream 0).2.2 _
     (List.Perm.swap _ _ _) ("n1")⟩

theorem exp_hundredth_lt_one : Real.exp (-(1/100)) < 1 := by
  rw [show (1:ℝ) = Real.exp 0 from Real.exp_zero.symm]
  exact Real.exp_lt_exp.mpr (by norm_num)

theorem exp_hundredth_ge : (99:ℝ)/100 ≤ Real.exp (-(1/100)) := by
  have h := Real.add_one_le_exp (-(1/100 : ℝ))
  linarith

theorem calib_decayed_value :
    calculateDecayedKarma defaultTKAPO [] calibNode 8640000 =
      1/2 * Real.exp (-(1/100)) := by
  have h1 : (0:ℝ) ≤ 1/2 * Real.exp (-(1/100)) := by positivity
  have h2 : 1/2 * Real.exp (-(1/100)) ≤ 1 := by
    nlinarith [exp_hundredth_lt_one, Real.exp_pos (-(1/100 : ℝ))]
  simp only [calculateDecayedKarma, defaultTKAPO, calibNode, msPerDay]
  norm_num
  rw [min_eq_right h2, max_eq_right h1]

theorem calib_classify_none :
    classifyNode defaultTKAPO [] 8640000 calibNode = none := by
  simp only [classifyNode]
  rw [show historyFor [] calibNode.id = [] from rfl, calib_decayed_value]
  have hge := exp_hundredth_ge
  have hlt := exp_hundredth_lt_one
  rw [if_neg (show ¬ 1/2 * Real.exp (-(1/100)) < defaultTKAPO.pruneThreshold by
        show ¬ 1/2 * Real.exp (-(1/100)) < 1/10
        nlinarith),
     if_neg (show ¬ 1/2 * Real.exp (-(1/100)) > defaultTKAPO.consolidateThreshold by
        show ¬ 1/2 * Real.exp (-(1/100)) > 9/10
        nlinarith),
     if_neg (show ¬ |1/2 * Real.exp (-(1/100)) - calibNode.karma| > 1/100 by
        show ¬ |1/2 * Real.exp (-(1/100)) - 1/2| > 1/100
        rw [not_lt, abs_le]
        constructor <;> nlinarith)]

theorem calib_run_unchanged :
    (runCalibration defaultTKAPO [] calibGraph 8640000).graph = calibGraph := by
  simp [runCalibration, getAllNodes, sortDescBy, insertDescBy, calibGraph,
    calib_classify_none, batchUpdateKarma]

/-- C7 counterexample: the claim says every node that is neither pruned
nor consolidated has its recomputed decayed weight applied.  A node with
karma 0.5 re-read 0.1 days later decays to `0.5·e^(-0.01)` — a value
strictly between the thresholds but within the 0.01 write deadband — so
`runCalibration` leaves the stored weight at 0.5 even though the
recomputed weight differs from it. -/
theorem c7_counterexample :
    (getNode (runCalibration defaultTKAPO [] calibGraph 8640000).graph ("n1")).map
        (fun m => m.karma) = some (1/2) ∧
    ¬ calculateDecayedKarma defaultTKAPO [] calibNode 8640000 = 1/2 ∧
    defaultTKAPO.pruneThreshold ≤
      calculateDecayedKarma defaultTKAPO [] calibNode 8640000 ∧
    calculateDecayedKarma defaultTKAPO [] calibNode 8640000 ≤
      defaultTKAPO.consolidateThreshold := by
  have hge := exp_hundredth_ge
  have hlt := exp_hundredth_lt_one
  refine ⟨?_, ?_, ?_, ?_⟩
  · rw [calib_run_unchanged]
    rfl
  · rw [calib_decayed_value]
    intro h
    nlinarith
  · rw [calib_decayed_value]
    show (1:ℝ)/10 ≤ 1/2 * Real.exp (-(1/100))
    nlinarith
  · rw [calib_decayed_value]
    show 1/2 * Real.exp (-(1/100)) ≤ (9:ℝ)/10
    nlinarith

/-- C7 (amended): `runCalibration` deletes every node whose recomputed
weight falls below `pruneThreshold`, writes 1.0 for every node above
`consolidateThreshold`, writes the recomputed weight for every remaining
node that moved by more than 0.01, and leaves all other nodes untouched
(this last deadband is the correction to the claim). -/
theorem c7_amended (cfg : TKAPOConfig) (hist : List (String × List AccessEvent))
    (g : GraphState ℝ) (nowMs : Int)
    (hnd : (g.nodes.map fun n => n.id).Nodup) (hlen : g.nodes.length ≤ 100000)
    (n : GraphNode ℝ) (hn : n ∈ g.nodes) :
    (calculateDecayedKarma cfg (historyFor hist n.id) n nowMs < cfg.pruneThreshold →
      getNode (runCalibration cfg hist g nowMs).graph n.id = none) ∧
    (¬ calculateDecayedKarma cfg (historyFor hist n.id) n nowMs < cfg.pruneThreshold →
      (getNode (runCalibration cfg hist g nowMs).graph n.id).map (fun m => m.karma) =
        some (if cfg.consolidateThreshold <
                  calculateDecayedKarma cfg (historyFor hist n.id) n nowMs then 1
              else if 1/100 <
                  |calculateDecayedKarma cfg (historyFor hist n.id) n nowMs - n.karma|
                then calculateDecayedKarma cfg (historyFor hist n.id) n nowMs
              else n.karma)) := by
  have hperm : (getAllNodes g 100000).Perm g.nodes := by
    unfold getAllNodes
    rw [List.take_of_length_le (by rw [(sortDescBy_perm _ _).length_eq]; exact hlen)]
    exact sortDescBy_perm _ _
  have hnd2 : ((getAllNodes g 100000).map fun n => n.id).Nodup :=
    ((hperm.map _).nodup_iff).mpr hnd
  have hn2 : n ∈ getAllNodes g 100000 := hperm.mem_iff.mpr hn
  have hgraph : (runCalibration cfg hist g nowMs).graph =
      ((((getAllNodes g 100000).filterMap (classifyNode cfg hist nowMs)).filter
          fun u => u.reason = KarmaReason.prune).map fun u => u.nodeId).foldl
        (fun gg id => (deleteNode gg id).2)
        (batchUpdateKarma g
          ((((getAllNodes g 100000).filterMap (classifyNode cfg hist nowMs)).filter
              fun u => ¬ u.reason = KarmaReason.prune).map
              fun u => (u.nodeId, u.newKarma)) nowMs).2 := rfl
  constructor
  · intro hp
    have hclassify : classifyNode cfg hist nowMs n =
        some { nodeId := n.id, oldKarma := n.karma, newKarma := 0,
               reason := KarmaReason.prune } := by
      simp only [classifyNode]
      rw [if_pos hp]
    have hmem : n.id ∈ (((getAllNodes g 100000).filterMap
        (classifyNode cfg hist nowMs)).filter
          fun u => u.reason = KarmaReason.prune).map fun u => u.nodeId :=
      (calib_mem_toPrune cfg hist nowMs _ hnd2 n hn2).mpr ⟨_, hclassify, rfl⟩
    rw [hgraph, getNode_foldl_delete, if_pos hmem]
  · intro hp
    have hnotprune : ¬ n.id ∈ (((getAllNodes g 100000).filterMap
        (classifyNode cfg hist nowMs)).filter
          fun u => u.reason = KarmaReason.prune).map fun u => u.nodeId := by
      intro hmem
      rcases (calib_mem_toPrune cfg hist nowMs _ hnd2 n hn2).mp hmem with ⟨u, hcl, hr⟩
      simp only [classifyNode] at hcl
      rw [if_neg hp] at hcl
      split_ifs at hcl <;> (cases hcl; cases hr)
    have hkeys : (((((getAllNodes g 100000).filterMap
        (classifyNode cfg hist nowMs)).filter
          fun u => ¬ u.reason = KarmaReason.prune).map
          fun u => (u.nodeId, u.newKarma)).map Prod.fst).Nodup :=
      (calib_keys_sublist cfg hist nowMs _).nodup hnd2
    rw [hgraph, getNode_foldl_delete, if_neg hnotprune, getNode_batchUpdateKarma,
      getNode_of_mem_nodup g hnd n hn]
    simp only [Option.map_some']
    congr 1
    rw [applyUpdates_karma _ _ _ hkeys, calib_lookup cfg hist nowMs _ hnd2 n hn2]
    by_cases hc : cfg.consolidateThreshold <
        calculateDecayedKarma cfg (historyFor hist n.id) n nowMs
    · have hclassify : classifyNode cfg hist nowMs n =
          some { nodeId := n.id, oldKarma := n.karma, newKarma := 1,
                 reason := KarmaReason.consolidate } := by
        simp only [classifyNode]
        rw [if_neg hp, if_pos hc]
      rw [hclassify, if_pos hc]
      simp
    · by_cases habs : 1/100 <
          |calculateDecayedKarma cfg (historyFor hist n.id) n nowMs - n.karma|
      · have hclassify : classifyNode cfg hist nowMs n =
            some { nodeId := n.id, oldKarma := n.karma,
                   newKarma := calculateDecayedKarma cfg (historyFor hist n.id) n nowMs,
                   reason := KarmaReason.decay } := by
          simp only [classifyNode]
          rw [if_neg hp, if_neg hc, if_pos habs]
        rw [hclassify, if_neg hc, if_pos habs]
        simp
      · have hclassify : classifyNode cfg hist nowMs n = none := by
          simp only [classifyNode]
          rw [if_neg hp, if_neg hc, if_neg habs]
        rw [hclassify, if_neg hc, if_neg habs]
        simp

/-- C7 witness: a single stored node, calibrated at the instant of its
last update (no elapsed time), hits the amended theorem's hypotheses. -/
theorem c7_witness :
    ((calibGraph.nodes.map fun n => n.id).Nodup ∧ calibGraph.nodes.length ≤ 100000 ∧
      calibNode ∈ calibGraph.nodes) ∧
    (¬ calculateDecayedKarma defaultTKAPO (historyFor [] calibNode.id) calibNode 0 <
        defaultTKAPO.pruneThreshold →
      (getNode (runCalibration defaultTKAPO [] calibGraph 0).graph
          calibNode.id).map (fun m => m.karma) =
        some (if defaultTKAPO.consolidateThreshold <
                  calculateDecayedKarma defaultTKAPO (historyFor [] calibNode.id)
                    calibNode 0 then 1
              else if 1/100 <
                  |calculateDecayedKarma defaultTKAPO (historyFor [] calibNode.id)
                      calibNode 0 - calibNode.karma|
                then calculateDecayedKarma defaultTKAPO (historyFor [] calibNode.id)
                  calibNode 0
              else calibNode.karma)) := by
  have hnd : (calibGraph.nodes.map fun n => n.id).Nodup := by
    rw [show calibGraph.nodes.map (fun n => n.id) = ["n1"] from rfl]
    simp
  have hlen : calibGraph.nodes.length ≤ 100000 := by
    rw [show calibGraph.nodes.length = 1 from rfl]
    omega
  have hmem : calibNode ∈ calibGraph.nodes := List.mem_singleton.mpr rfl
  exact ⟨⟨hnd, hlen, hmem⟩,
    (c7_amended defaultTKAPO [] calibGraph 0 hnd hlen calibNode hmem).2⟩

/-- C8 counterexample: the claim says two encoder runs against the same
live graph with the same seed produce equal signature vectors.  For a
node with no encodable edges the signature is `crypto.randomFillSync`
output, so two runs (modelled by two byte streams) differ. -/
theorem c8_counterexample :
    ¬ ((encodeNodeStructure isolatedNodeGraph (freshEngine 8 42) []
          demoRand0 demoCoin ("a") 2).1.vector =
       (encodeNodeStructure isolatedNodeGraph (freshEngine 8 42) []
          demoRand255 demoCoin ("a") 2).1.vector) := by
  decide

/-- C8 (amended): when the neighbourhood contributes an odd number of
triple vectors, the majority vote has no ties and the signature is
independent of the randomness, so re-running the encoder reproduces it. -/
theorem c8_amended (g : GraphState α) (eng : HDCEngineState)
    (cache : List (String × StructuralSignature)) (nodeId : String) (hops : Nat)
    (rand1 rand2 : Nat → Nat) (coin1 coin2 : Nat → Bool)
    (h : Odd (tripleVectorsOf g eng nodeId hops).1.length) :
    encodeNodeStructure g eng cache rand1 coin1 nodeId hops =
      encodeNodeStructure g eng cache rand2 coin2 nodeId hops := by
  unfold encodeNodeStructure
  cases hc : assocLookup cache (nodeId ++ ":" ++ toString hops) with
  | some sig => simp [hc]
  | none =>
      simp only [hc]
      have hpos : 0 < (tripleVectorsOf g eng nodeId hops).1.length := by
        rcases h with ⟨m, hm⟩
        omega
      rw [if_pos hpos, if_pos hpos, bundle_indep_of_odd eng.dimensions _ h coin1 coin2]

/-- C8 witness: a 1-edge neighbourhood (one triple vector, odd count)
encodes identically under two different randomness streams. -/
theorem c8_witness :
    Odd (tripleVectorsOf twoNodeGraph (freshEngine 8 42) ("a") 1).1.length ∧
    encodeNodeStructure twoNodeGraph (freshEngine 8 42) [] demoRand0 demoCoin ("a") 1 =
      encodeNodeStructure twoNodeGraph (freshEngine 8 42) [] demoRand255 demoCoin ("a") 1 :=
  ⟨by decide,
   c8_amended twoNodeGraph (freshEngine 8 42) [] ("a") 1 demoRand0 demoRand255
     demoCoin demoCoin (by decide)⟩

/-- C9 counterexample: the claim reads `encodeTriple(s,r,t) =
bind(encode(r), bind(encode(s), encode(t)))` with `encode` the symbol
encoding.  `getRelationVector` derives unregistered relation vectors from
the *prefixed* name `"rel:" + r`, so for the relation `"b"` the identity
fails (seed 42, 8-bit engine). -/
theorem c9_counterexample :
    ¬ ((encodeTriple (freshEngine 8 42) ("a") ("b") ("c")).1 =
       bind (getSymbolVector (freshEngine 8 42) ("b")).1
         (bind (getSymbolVector (freshEngine 8 42) ("a")).1
               (getSymbolVector (freshEngine 8 42) ("c")).1)) := by
  decide

theorem getRelationVector_fresh (dims seed : Nat)
    (sc : List (String × List Nat)) (r : String) :
    getRelationVector
        { dimensions := dims, seed := seed, symbolCodebook := sc,
          relationCodebook :=
            metaRelations.map fun x => (x, generateDeterministicVector seed x dims) }
        r =
      (generateDeterministicVector seed
          (if r ∈ metaRelations then r else "rel:" ++ r) dims,
       { dimensions := dims, seed := seed, symbolCodebook := sc,
         relationCodebook :=
           if r ∈ metaRelations then
             metaRelations.map fun x => (x, generateDeterministicVector seed x dims)
           else (metaRelations.map fun x => (x, generateDeterministicVector seed x dims)) ++
             [(r, generateDeterministicVector seed ("rel:" ++ r) dims)] }) := by
  by_cases hr : r ∈ metaRelations <;>
    simp [getRelationVector, assocLookup_map_self, hr]

theorem getSymbolVector_single_fst (dims seed : Nat) (s t : String)
    (rc : List (String × List Nat)) :
    (getSymbolVector
        { dimensions := dims, seed := seed,
          symbolCodebook := [(s, generateDeterministicVector seed s dims)],
          relationCodebook := rc } t).1 =
      generateDeterministicVector seed t dims := by
  by_cases hts : s = t
  · subst hts
    simp [getSymbolVector, assocLookup_cons]
  · simp [getSymbolVector, assocLookup_cons, hts, assocLookup_nil]

/-- C9 (amended): on a fresh engine, `encodeTriple(s,r,t)` equals
`bind(relVec(r), bind(encode(s), encode(t)))` where `relVec` uses the
deterministic encoding of `r` itself for the 15 pre-registered
meta-relations and of `"rel:" + r` for every other relation. -/
theorem c9_amended (dims seed : Nat) (s r t : String) :
    (encodeTriple (freshEngine dims seed) s r t).1 =
      bind (generateDeterministicVector seed
              (if r ∈ metaRelations then r else "rel:" ++ r) dims)
        (bind (generateDeterministicVector seed s dims)
              (generateDeterministicVector seed t dims)) := by
  have h1 : getSymbolVector (freshEngine dims seed) s =
      (generateDeterministicVector seed s dims,
       { dimensions := dims, seed := seed,
         symbolCodebook := [(s, generateDeterministicVector seed s dims)],
         relationCodebook :=
           metaRelations.map fun x => (x, generateDeterministicVector seed x dims) }) := rfl
  simp only [encodeTriple, h1, getRelationVector_fresh, getSymbolVector_single_fst]

/-- C10: `findAnalogous` never returns the query node itself: the
candidate loop skips every stored node whose id equals the query id, and
filtering, sorting and truncation only remove candidates. -/
theorem c10_findAnalogous_excludes_query (g : GraphState α) (eng : HDCEngineState)
    (cache : List (String × StructuralSignature)) (rand : Nat → Nat)
    (coin : Nat → Bool) (q : String) (topK : Nat) (minSim : ℚ)
    (r : AnalogyResult α) (hr : r ∈ findAnalogous g eng cache rand coin q topK minSim) :
    ¬ r.matchId = q := by
  simp only [findAnalogous] at hr
  have hr2 := (mem_sortDescBy (fun r : AnalogyResult α => r.similarity) _ r).mp
    (List.take_subset _ _ hr)
  refine foldl_mem_prop (fun x : AnalogyResult α => ¬ x.matchId = q) _ _ _
    (by intro x hx; cases hx) ?_ r hr2
  intro b hb acc2 hacc x hx
  have hbq : ¬ b.1 = q := by
    refine foldl_tuple_mem_prop
      (fun c : String × StructuralSignature => ¬ c.1 = q) _ _ _
      (by intro c hc; cases hc) ?_ b hb
    intro b2 acc3 hacc3 c hc
    split at hc
    · rename_i hcond
      rcases List.mem_append.mp hc with h1 | h1
      · exact hacc3 c h1
      · rcases List.mem_singleton.mp h1 with rfl
        exact hcond
    · exact hacc3 c hc
  split at hx
  · rcases List.mem_append.mp hx with h1 | h1
    · exact hacc x h1
    · rcases List.mem_singleton.mp h1 with rfl
      exact hbq
  · exact hacc x hx

/-- C10 witness: in the two-node scenario the query `q` is analogous only
to `m`. -/
theorem c10_witness :
    c10Result ∈ findAnalogous analogyGraph (freshEngine 8 42) [] demoRand0 demoCoin
      ("q") 5 0 ∧ ¬ c10Result.matchId = "q" := by
  have hdim : (freshEngine 8 42).dimensions = 8 := rfl
  have hcond : (0 : ℚ) ≤ similarity (freshEngine 8 42).dimensions
      c10Enc0.1.vector c10Enc1.1.vector := by
    have hd : hammingDistance c10Enc0.1.vector c10Enc1.1.vector = 0 := by decide
    rw [similarity, hd, hdim]
    norm_num
  have hres : findAnalogous analogyGraph (freshEngine 8 42) [] demoRand0 demoCoin
      ("q") 5 0 = [c10Result] := by
    simp only [findAnalogous]
    rw [show encodeNodeStructure analogyGraph (freshEngine 8 42) [] demoRand0 demoCoin
      ("q") 2 = c10Enc0 from rfl]
    rw [show getAllNodes analogyGraph 1000 =
      [{ id := "q", label := "Q", type := "tq", karma := 1, updatedAt := 0 },
       { id := "m", label := "M", type := "tm", karma := 1, updatedAt := 0 }] from by decide]
    rw [List.foldl_cons, List.foldl_cons, List.foldl_nil]
    simp
    rw [show encodeNodeStructure analogyGraph c10Enc0.2.1 c10Enc0.2.2 demoRand0 demoCoin
      ("m") 2 = c10Enc1 from rfl]
    rw [if_pos hcond]
    simp [sortDescBy, insertDescBy, c10Result]
  have hmem : c10Result ∈ findAnalogous analogyGraph (freshEngine 8 42) [] demoRand0
      demoCoin ("q") 5 0 := by
    rw [hres]
    exact List.mem_singleton.mpr rfl
  exact ⟨hmem, c10_findAnalogous_excludes_query analogyGraph (freshEngine 8 42) []
    demoRand0 demoCoin ("q") 5 0 c10Result hmem⟩

end TNSEC
